import Mathlib

/-!
Verification development for the Bitwise.exe network-monitoring repository.

The definitions below are a shallow embedding of the Python sources:
  Backend/syn_detector.py                    (SYNDetector)
  network_monitoring/backend/firewall_manager.py (FirewallManager)
  network_monitoring/backend/packet_analyzer.py  (PacketAnalyzer)
  network_monitoring/backend/etl_pipeline.py     (ETLPipeline)

Modelling conventions:
  - wall-clock times (Python floats from time.time and packet.time) are
    modelled as integers; the code only orders, adds and subtracts them;
  - IP addresses (Python strings) are modelled as opaque identifiers with
    decidable equality, here Nat;
  - Python dicts are modelled as association lists with insert-in-place
    semantics (dictGet, dictSet, dictDel below), matching dict insertion
    order and key replacement;
  - external collaborators (scapy decoding, the attack classifier, the
    Firestore logger) are modelled at their call sites: emitted attack
    events are accumulated in an explicit log list, and sink failures are
    driven by an explicit behavior oracle.
-/

abbrev Time := ℤ

abbrev IPAddr := Nat

/-- Python dict lookup on an association list: first binding wins. -/
def dictGet {α β : Type} [DecidableEq α] : List (α × β) → α → Option β
  | [], _ => none
  | p :: rest, k => if p.1 = k then some p.2 else dictGet rest k

/-- Python dict assignment: replace the binding in place if the key is
present, otherwise append a new binding at the end. -/
def dictSet {α β : Type} [DecidableEq α] : List (α × β) → α → β → List (α × β)
  | [], k, v => [(k, v)]
  | p :: rest, k, v => if p.1 = k then (k, v) :: rest else p :: dictSet rest k v

/-- Python del on a dict key. -/
def dictDel {α β : Type} [DecidableEq α] (m : List (α × β)) (k : α) : List (α × β) :=
  m.filter (fun p => p.1 ≠ k)

/-- Lookup in a collections.defaultdict(list): missing keys read as the
empty list. -/
def dgetD {α β : Type} [DecidableEq α] (m : List (α × List β)) (k : α) : List β :=
  (dictGet m k).getD []

theorem dictGet_dictSet_self {α β : Type} [DecidableEq α] (m : List (α × β)) (k : α) (v : β) :
    dictGet (dictSet m k v) k = some v := by
  induction m with
  | nil => simp [dictGet, dictSet]
  | cons p rest ih =>
    by_cases h : p.1 = k
    · simp [dictGet, dictSet, h]
    · simp [dictGet, dictSet, h, ih]

theorem dictGet_dictSet_ne {α β : Type} [DecidableEq α] (m : List (α × β)) (k k' : α) (v : β)
    (h : k' ≠ k) : dictGet (dictSet m k v) k' = dictGet m k' := by
  have hk : ¬k = k' := fun hh => h hh.symm
  induction m with
  | nil => simp [dictGet, dictSet, hk]
  | cons p rest ih =>
    by_cases hp : p.1 = k
    · subst hp
      simp [dictGet, dictSet, hk, fun hh : p.1 = k' => h hh.symm]
    · simp [dictGet, dictSet, hp, ih]

theorem dictGet_dictDel_self {α β : Type} [DecidableEq α] (m : List (α × β)) (k : α) :
    dictGet (dictDel m k) k = none := by
  induction m with
  | nil => simp [dictGet, dictDel]
  | cons p rest ih =>
    by_cases h : p.1 = k
    · simpa [dictDel, h] using ih
    · simpa [dictDel, dictGet, h] using ih

theorem dictDel_keys_ne {α β : Type} [DecidableEq α] (m : List (α × β)) (k : α) :
    ∀ p ∈ dictDel m k, p.1 ≠ k := by
  intro p hp
  have := List.of_mem_filter hp
  simpa using this

theorem dictSet_dictSet {α β : Type} [DecidableEq α] (m : List (α × β)) (k : α) (v w : β) :
    dictSet (dictSet m k v) k w = dictSet m k w := by
  induction m with
  | nil => simp [dictSet]
  | cons p rest ih =>
    by_cases hp : p.1 = k
    · simp [dictSet, hp]
    · simp [dictSet, hp, ih]

/-!
SYNDetector, embedded from Backend/syn_detector.py.

The Python class also owns a blocked_ips map with is_blocked and
get_remaining_block_time, but the deployed analyzer uses the separate
FirewallManager for blocking, so only the detection part is embedded here.
The detector stores, per source address, the list of observation times
(time.time at each call); threshold and window_seconds are configuration.
-/

structure SYNResult where
  is_attack : Bool
  packet_count : Nat
deriving DecidableEq

structure SYNDetector where
  threshold : Nat
  window_seconds : Time
  syn_packets : List (IPAddr × List Time)
deriving DecidableEq

/-- SYNDetector.__init__ with its default arguments threshold=5,
window_seconds=2. -/
def SYNDetector.init (threshold : Nat) (window_seconds : Time) : SYNDetector :=
  { threshold := threshold, window_seconds := window_seconds, syn_packets := [] }

/-- SYNDetector._cleanup_old_packets: keep only the observation times with
timestamp >= current_time - window_seconds. -/
def SYNDetector.cleanup_old_packets (d : SYNDetector) (src_ip : IPAddr) (current_time : Time) :
    SYNDetector :=
  { d with
    syn_packets := dictSet d.syn_packets src_ip
      ((dgetD d.syn_packets src_ip).filter (fun t => current_time - d.window_seconds ≤ t)) }

/-- SYNDetector.check_syn_flood: prune the window, append the current time,
then report is_attack exactly when the stored count has reached the
threshold. Returns the result record and the updated detector state. -/
def SYNDetector.check_syn_flood (d : SYNDetector) (src_ip : IPAddr) (current_time : Time) :
    SYNResult × SYNDetector :=
  let d1 := d.cleanup_old_packets src_ip current_time
  let d2 := { d1 with
    syn_packets := dictSet d1.syn_packets src_ip (dgetD d1.syn_packets src_ip ++ [current_time]) }
  let packet_count := (dgetD d2.syn_packets src_ip).length
  ({ is_attack := decide (d.threshold ≤ packet_count), packet_count := packet_count }, d2)

/-- Driver: feed a list of observation times for one source through
check_syn_flood, collecting the per-call results and the final state. -/
def SYNDetector.observeList (d : SYNDetector) (src_ip : IPAddr) :
    List Time → List SYNResult × SYNDetector
  | [] => ([], d)
  | t :: ts =>
    let rd := d.check_syn_flood src_ip t
    let rest := rd.2.observeList src_ip ts
    (rd.1 :: rest.1, rest.2)

theorem check_syn_flood_threshold (d : SYNDetector) (src_ip : IPAddr) (t : Time) :
    (d.check_syn_flood src_ip t).2.threshold = d.threshold := by
  simp [SYNDetector.check_syn_flood, SYNDetector.cleanup_old_packets]

theorem check_syn_flood_window (d : SYNDetector) (src_ip : IPAddr) (t : Time) :
    (d.check_syn_flood src_ip t).2.window_seconds = d.window_seconds := by
  simp [SYNDetector.check_syn_flood, SYNDetector.cleanup_old_packets]

/-- A call whose stored observations all still lie inside the window prunes
nothing: the state becomes the old list with the new time appended, and the
reported count is the old count plus one. -/
theorem check_syn_flood_in_window (d : SYNDetector) (src_ip : IPAddr) (t : Time)
    (hkeep : ∀ x ∈ dgetD d.syn_packets src_ip, t - d.window_seconds ≤ x) :
    d.check_syn_flood src_ip t =
      ({ is_attack := decide (d.threshold ≤ (dgetD d.syn_packets src_ip).length + 1),
         packet_count := (dgetD d.syn_packets src_ip).length + 1 },
       { d with syn_packets :=
           dictSet d.syn_packets src_ip (dgetD d.syn_packets src_ip ++ [t]) }) := by
  have hfilter : (dgetD d.syn_packets src_ip).filter
      (fun x => decide (t - d.window_seconds ≤ x)) = dgetD d.syn_packets src_ip := by
    rw [List.filter_eq_self]
    intro a ha
    simpa using hkeep a ha
  simp only [dgetD] at hfilter
  simp only [SYNDetector.check_syn_flood, SYNDetector.cleanup_old_packets, dgetD,
    dictGet_dictSet_self, Option.getD_some]
  rw [hfilter]
  simp [Prod.mk.injEq, SYNResult.mk.injEq, SYNDetector.mk.injEq, dictSet_dictSet]

/-- One call of check_syn_flood, state part: the stored list for the source
becomes the pruned old list with the current time appended. -/
theorem check_syn_flood_stored (d : SYNDetector) (src_ip : IPAddr) (t : Time) :
    (d.check_syn_flood src_ip t).2.syn_packets =
      dictSet d.syn_packets src_ip
        ((dgetD d.syn_packets src_ip).filter (fun x => t - d.window_seconds ≤ x) ++ [t]) := by
  simp [SYNDetector.check_syn_flood, SYNDetector.cleanup_old_packets, dgetD,
    dictGet_dictSet_self, dictSet_dictSet]

/-- One call of check_syn_flood, result part. -/
theorem check_syn_flood_result (d : SYNDetector) (src_ip : IPAddr) (t : Time) :
    (d.check_syn_flood src_ip t).1 =
      { is_attack := decide (d.threshold ≤
          ((dgetD d.syn_packets src_ip).filter (fun x => t - d.window_seconds ≤ x)).length + 1),
        packet_count :=
          ((dgetD d.syn_packets src_ip).filter (fun x => t - d.window_seconds ≤ x)).length + 1 } := by
  simp [SYNDetector.check_syn_flood, SYNDetector.cleanup_old_packets, dgetD,
    dictGet_dictSet_self]

/-- A call that finds only expired observations resets the source to a
single stored time and reports count one. -/
theorem check_syn_flood_all_expired (d : SYNDetector) (src_ip : IPAddr) (t : Time)
    (hold : ∀ x ∈ dgetD d.syn_packets src_ip, x + d.window_seconds < t) :
    (d.check_syn_flood src_ip t).1 =
      { is_attack := decide (d.threshold ≤ 1), packet_count := 1 } ∧
    dgetD (d.check_syn_flood src_ip t).2.syn_packets src_ip = [t] := by
  have hfilter : (dgetD d.syn_packets src_ip).filter
      (fun x => decide (t - d.window_seconds ≤ x)) = [] := by
    rw [List.filter_eq_nil_iff]
    intro a ha
    have := hold a ha
    simp only [decide_eq_true_eq]
    intro hc
    linarith
  constructor
  · rw [check_syn_flood_result, hfilter]
    simp
  · rw [check_syn_flood_stored, hfilter]
    simp [dgetD, dictGet_dictSet_self]

/-- Observations confined to a single interval of window length are never
pruned: feeding ts into the detector from a state whose stored list for the
source is prev yields per-call counts prev.length+1, prev.length+2, ...,
each flagged as an attack exactly when it reaches the threshold, and the
final stored list is prev ++ ts. -/
theorem observeList_in_window (src_ip : IPAddr) (ts : List Time) :
    ∀ (d : SYNDetector) (lo : Time),
      (∀ x ∈ dgetD d.syn_packets src_ip, lo ≤ x) →
      (∀ t ∈ ts, lo ≤ t ∧ t ≤ lo + d.window_seconds) →
      ((d.observeList src_ip ts).1.map SYNResult.packet_count =
          List.range' ((dgetD d.syn_packets src_ip).length + 1) ts.length ∧
       (∀ r ∈ (d.observeList src_ip ts).1,
          r.is_attack = decide (d.threshold ≤ r.packet_count)) ∧
       dgetD (d.observeList src_ip ts).2.syn_packets src_ip =
          dgetD d.syn_packets src_ip ++ ts) := by
  induction ts with
  | nil =>
    intro d lo hprev hts
    simp [SYNDetector.observeList]
  | cons t ts ih =>
    intro d lo hprev hts
    have hkeep : ∀ x ∈ dgetD d.syn_packets src_ip, t - d.window_seconds ≤ x := by
      intro x hx
      have h1 : lo ≤ x := hprev x hx
      have h2 : t ≤ lo + d.window_seconds := (hts t (by simp)).2
      linarith
    have hstep := check_syn_flood_in_window d src_ip t hkeep
    have hstored : dgetD (d.check_syn_flood src_ip t).2.syn_packets src_ip =
        dgetD d.syn_packets src_ip ++ [t] := by
      rw [hstep]
      simp [dgetD, dictGet_dictSet_self]
    have hth : (d.check_syn_flood src_ip t).2.threshold = d.threshold :=
      check_syn_flood_threshold d src_ip t
    have hwin : (d.check_syn_flood src_ip t).2.window_seconds = d.window_seconds :=
      check_syn_flood_window d src_ip t
    have hprev' : ∀ x ∈ dgetD (d.check_syn_flood src_ip t).2.syn_packets src_ip, lo ≤ x := by
      rw [hstored]
      intro x hx
      rcases List.mem_append.mp hx with hx | hx
      · exact hprev x hx
      · have : x = t := by simpa using hx
        exact this ▸ (hts t (by simp)).1
    have hts' : ∀ t' ∈ ts, lo ≤ t' ∧
        t' ≤ lo + (d.check_syn_flood src_ip t).2.window_seconds := by
      rw [hwin]
      intro t' ht'
      exact hts t' (by simp [ht'])
    obtain ⟨ihc, iha, ihs⟩ := ih (d.check_syn_flood src_ip t).2 lo hprev' hts'
    refine ⟨?_, ?_, ?_⟩
    · simp only [SYNDetector.observeList, List.map_cons, List.length_cons]
      rw [ihc, hstored, hstep]
      simp [List.range'_succ, List.length_append, Nat.add_comm, Nat.add_assoc,
        Nat.add_left_comm]
    · intro r hr
      simp only [SYNDetector.observeList, List.mem_cons] at hr
      rcases hr with hr | hr
      · rw [hr, hstep]
      · have := iha r hr
        rw [this, hth]
    · simp only [SYNDetector.observeList]
      rw [ihs, hstored, List.append_assoc]
      simp

/-- Observations whose consecutive spacing exceeds the window never
accumulate: every call prunes everything stored before it, so the count
stays one and, with a threshold of at least two, no call flags an attack. -/
theorem observe_spaced_aux (src_ip : IPAddr) (ts : List Time) :
    ∀ (d : SYNDetector),
      2 ≤ d.threshold →
      List.Chain' (fun a b => a + d.window_seconds < b) ts →
      (∀ t0 ∈ ts.head?, ∀ x ∈ dgetD d.syn_packets src_ip, x + d.window_seconds < t0) →
      ∀ r ∈ (d.observeList src_ip ts).1, r.is_attack = false := by
  induction ts with
  | nil =>
    intro d hth hch hh r hr
    simp [SYNDetector.observeList] at hr
  | cons t ts ih =>
    intro d hth hch hh r hr
    have hold : ∀ x ∈ dgetD d.syn_packets src_ip, x + d.window_seconds < t :=
      hh t (by simp)
    obtain ⟨hres, hstored⟩ := check_syn_flood_all_expired d src_ip t hold
    obtain ⟨hhead, htail⟩ := List.chain'_cons'.mp hch
    simp only [SYNDetector.observeList, List.mem_cons] at hr
    rcases hr with hr | hr
    · rw [hr, hres]
      simp only [decide_eq_false_iff_not]
      omega
    · refine ih (d.check_syn_flood src_ip t).2 ?_ ?_ ?_ r hr
      · rw [check_syn_flood_threshold]
        exact hth
      · have hw := check_syn_flood_window d src_ip t
        rw [hw]
        exact htail
      · intro t0 ht0 x hx
        rw [hstored] at hx
        have hx' : x = t := by simpa using hx
        rw [check_syn_flood_window, hx']
        exact hhead t0 ht0

/-- For a threshold of at least one, the map from counts one to T to their
attack flags is false below the threshold and true at it. -/
theorem range'_decide_threshold (T : Nat) (h : 1 ≤ T) :
    (List.range' 1 T).map (fun c => decide (T ≤ c)) =
      List.replicate (T - 1) false ++ [true] := by
  obtain ⟨n, rfl⟩ : ∃ n, T = n + 1 := ⟨T - 1, by omega⟩
  rw [List.range'_concat]
  rw [List.map_append]
  simp only [List.map_cons, List.map_nil, Nat.add_succ_sub_one]
  congr 1
  · rw [List.eq_replicate_iff]
    refine ⟨by simp, ?_⟩
    intro b hb
    obtain ⟨c, hc, rfl⟩ := List.mem_map.mp hb
    have := List.mem_range'_1.mp hc
    simp only [decide_eq_false_iff_not]
    omega
  · have hle : n + 1 ≤ 1 + n := by omega
    simp [hle]

/-- C2: on each call the Flood Detector discards the entries older than
now minus the window, appends now, and returns the count of stored
observations, flagging an attack exactly when the count reaches the
threshold; hence over T observations confined to one window the first
T-1 calls report no attack and the T-th reports one (counts one to T). -/
theorem claim_C2 :
    (∀ (d : SYNDetector) (src_ip : IPAddr) (now : Time),
        (d.check_syn_flood src_ip now).2.syn_packets =
          dictSet d.syn_packets src_ip
            ((dgetD d.syn_packets src_ip).filter
              (fun x => now - d.window_seconds ≤ x) ++ [now]) ∧
        (d.check_syn_flood src_ip now).1.packet_count =
          (dgetD (d.check_syn_flood src_ip now).2.syn_packets src_ip).length ∧
        (d.check_syn_flood src_ip now).1.is_attack =
          decide (d.threshold ≤ (d.check_syn_flood src_ip now).1.packet_count)) ∧
    (∀ (T : Nat) (d : SYNDetector) (src_ip : IPAddr) (lo : Time) (ts : List Time),
        d.threshold = T → 1 ≤ T → dgetD d.syn_packets src_ip = [] → ts.length = T →
        (∀ t ∈ ts, lo ≤ t ∧ t ≤ lo + d.window_seconds) →
        (d.observeList src_ip ts).1.map SYNResult.packet_count = List.range' 1 T ∧
        (d.observeList src_ip ts).1.map SYNResult.is_attack =
          List.replicate (T - 1) false ++ [true]) := by
  constructor
  · intro d src_ip now
    refine ⟨check_syn_flood_stored d src_ip now, ?_, ?_⟩
    · rw [check_syn_flood_result, check_syn_flood_stored]
      simp [dgetD, dictGet_dictSet_self]
    · rw [check_syn_flood_result]
  · intro T d src_ip lo ts hth hT hempty hlen hts
    obtain ⟨hcounts, hattacks, _⟩ := observeList_in_window src_ip ts d lo
      (by rw [hempty]; simp) hts
    rw [hempty] at hcounts
    simp only [List.length_nil, Nat.zero_add, hlen] at hcounts
    refine ⟨hcounts, ?_⟩
    have hmap : (d.observeList src_ip ts).1.map SYNResult.is_attack =
        (d.observeList src_ip ts).1.map (fun r => decide (T ≤ r.packet_count)) := by
      apply List.map_congr_left
      intro r hr
      rw [hattacks r hr, hth]
    rw [hmap]
    have hcomp : (d.observeList src_ip ts).1.map (fun r => decide (T ≤ r.packet_count)) =
        ((d.observeList src_ip ts).1.map SYNResult.packet_count).map
          (fun c => decide (T ≤ c)) := by
      rw [List.map_map]
      rfl
    rw [hcomp, hcounts, range'_decide_threshold T hT]

/-- C2 witness: threshold five, window two seconds, five observations at
times zero, one, one, two, two from a fresh detector give counts one to
five, the first four calls report no attack, and the fifth reports one. -/
theorem claim_C2_witness :
    ((SYNDetector.init 5 2).observeList 7 [0, 1, 1, 2, 2]).1.map SYNResult.packet_count =
      [1, 2, 3, 4, 5] ∧
    ((SYNDetector.init 5 2).observeList 7 [0, 1, 1, 2, 2]).1.map SYNResult.is_attack =
      [false, false, false, false, true] := by
  obtain ⟨h1, h2⟩ := claim_C2.2 5 (SYNDetector.init 5 2) 7 0 [0, 1, 1, 2, 2]
    rfl (by decide) rfl rfl (by simp only [SYNDetector.init]; decide)
  constructor
  · rw [h1]
    decide
  · rw [h2]
    decide

/-- C7: after any call the stored window for the source holds no
observation older than now minus the window (for a nonnegative window),
and a sequence of observations each spaced more than the window after the
previous one never flags an attack for any threshold of at least two. -/
theorem claim_C7 :
    (∀ (d : SYNDetector) (src_ip : IPAddr) (now : Time), 0 ≤ d.window_seconds →
        ∀ x ∈ dgetD (d.check_syn_flood src_ip now).2.syn_packets src_ip,
          now - d.window_seconds ≤ x) ∧
    (∀ (d : SYNDetector) (src_ip : IPAddr) (ts : List Time),
        dgetD d.syn_packets src_ip = [] → 2 ≤ d.threshold →
        List.Chain' (fun a b => a + d.window_seconds < b) ts →
        ∀ r ∈ (d.observeList src_ip ts).1, r.is_attack = false) := by
  constructor
  · intro d src_ip now hw x hx
    rw [check_syn_flood_stored] at hx
    simp only [dgetD, dictGet_dictSet_self, Option.getD_some] at hx
    rcases List.mem_append.mp hx with hx | hx
    · have := List.of_mem_filter hx
      simpa using this
    · have hx' : x = now := by simpa using hx
      rw [hx']
      linarith
  · intro d src_ip ts hempty hth hch r hr
    refine observe_spaced_aux src_ip ts d hth hch ?_ r hr
    intro t0 ht0 x hx
    rw [hempty] at hx
    simp at hx

/-- C7 witness: a stored observation at time zero with window two is kept
by a call at time one and both stored times lie inside the window; three
observations spaced three seconds apart with window two and threshold five
never flag an attack. -/
theorem claim_C7_witness :
    (∀ x ∈ dgetD ((⟨5, 2, [(7, [0])]⟩ : SYNDetector).check_syn_flood 7 1).2.syn_packets 7,
        (1 : ℤ) - 2 ≤ x) ∧
    (∀ r ∈ ((SYNDetector.init 5 2).observeList 7 [0, 3, 6]).1, r.is_attack = false) :=
  ⟨claim_C7.1 ⟨5, 2, [(7, [0])]⟩ 7 1 (by decide),
   claim_C7.2 (SYNDetector.init 5 2) 7 [0, 3, 6] rfl (by decide)
     (by simp only [List.chain'_cons, List.chain'_singleton, SYNDetector.init]
         norm_num)⟩

/-!
FirewallManager, embedded from network_monitoring/backend/firewall_manager.py.

block_duration is stored in seconds (the constructor multiplies its
minutes argument by sixty). blocked_ips maps an address to its entry;
the formatted timestamp strings of the Python dict are derived data and
are not modelled. get_blocked_ips returns each active address with its
remaining time unblock_time - current_time (the Python int truncation of
that nonnegative number is not modelled) and, as a side effect, removes
the expired entries.
-/

structure BlockInfo where
  blocked_at : Time
  unblock_time : Time
deriving DecidableEq

structure FirewallManager where
  block_duration : Time
  blocked_ips : List (IPAddr × BlockInfo)
deriving DecidableEq

/-- FirewallManager.__init__ with block_duration_minutes, default ten. -/
def FirewallManager.init (block_duration_minutes : Time) : FirewallManager :=
  { block_duration := block_duration_minutes * 60, blocked_ips := [] }

/-- FirewallManager.block_ip: overwrite the entry for the address with
blocked_at = now and unblock_time = now + block_duration. -/
def FirewallManager.block_ip (fw : FirewallManager) (ip_address : IPAddr) (now : Time) :
    BlockInfo × FirewallManager :=
  let info : BlockInfo := { blocked_at := now, unblock_time := now + fw.block_duration }
  (info, { fw with blocked_ips := dictSet fw.blocked_ips ip_address info })

/-- FirewallManager.unblock_ip: delete the entry if present; the returned
flag mirrors the status field of the Python result dict. -/
def FirewallManager.unblock_ip (fw : FirewallManager) (ip_address : IPAddr) :
    Bool × FirewallManager :=
  match dictGet fw.blocked_ips ip_address with
  | some _ => (true, { fw with blocked_ips := dictDel fw.blocked_ips ip_address })
  | none => (false, fw)

/-- FirewallManager.is_blocked: true iff an entry exists whose unblock time
is still in the future; an entry found expired is deleted on this very
call (lazy expiry). -/
def FirewallManager.is_blocked (fw : FirewallManager) (ip_address : IPAddr) (now : Time) :
    Bool × FirewallManager :=
  match dictGet fw.blocked_ips ip_address with
  | none => (false, fw)
  | some info =>
    if info.unblock_time ≤ now then
      (false, { fw with blocked_ips := dictDel fw.blocked_ips ip_address })
    else (true, fw)

/-- FirewallManager.get_blocked_ips: list the active entries in insertion
order with their remaining seconds, and drop the expired entries from the
state. -/
def FirewallManager.get_blocked_ips (fw : FirewallManager) (now : Time) :
    List (IPAddr × Time) × FirewallManager :=
  (fw.blocked_ips.filterMap (fun p =>
      if now < p.2.unblock_time then some (p.1, p.2.unblock_time - now) else none),
   { fw with blocked_ips := fw.blocked_ips.filter (fun p => now < p.2.unblock_time) })

/-- C8: is_blocked answers true exactly when an entry exists whose unblock
time is after now; an entry found at or past its unblock time is removed by
the call itself and no later get_blocked_ips listing mentions the address;
an address with no entry reports false with the state unchanged. -/
theorem claim_C8 :
    (∀ (fw : FirewallManager) (a : IPAddr) (now : Time),
        (fw.is_blocked a now).1 = true ↔
          ∃ info, dictGet fw.blocked_ips a = some info ∧ now < info.unblock_time) ∧
    (∀ (fw : FirewallManager) (a : IPAddr) (now : Time) (info : BlockInfo),
        dictGet fw.blocked_ips a = some info → info.unblock_time ≤ now →
        (fw.is_blocked a now).1 = false ∧
        dictGet (fw.is_blocked a now).2.blocked_ips a = none ∧
        (∀ (later : Time) (q : IPAddr × Time),
            q ∈ ((fw.is_blocked a now).2.get_blocked_ips later).1 → q.1 ≠ a)) ∧
    (∀ (fw : FirewallManager) (a : IPAddr) (now : Time),
        dictGet fw.blocked_ips a = none → fw.is_blocked a now = (false, fw)) := by
  refine ⟨?_, ?_, ?_⟩
  · intro fw a now
    constructor
    · intro h
      cases hg : dictGet fw.blocked_ips a with
      | none => rw [FirewallManager.is_blocked, hg] at h; simp at h
      | some info =>
        refine ⟨info, rfl, ?_⟩
        rw [FirewallManager.is_blocked, hg] at h
        by_cases hexp : info.unblock_time ≤ now
        · simp [hexp] at h
        · linarith [not_le.mp hexp]
    · rintro ⟨info, hg, hlt⟩
      rw [FirewallManager.is_blocked, hg]
      have : ¬info.unblock_time ≤ now := not_le.mpr hlt
      simp [this]
  · intro fw a now info hg hexp
    have hcall : fw.is_blocked a now =
        (false, { fw with blocked_ips := dictDel fw.blocked_ips a }) := by
      rw [FirewallManager.is_blocked, hg]
      simp [hexp]
    refine ⟨by rw [hcall], ?_, ?_⟩
    · rw [hcall]
      exact dictGet_dictDel_self fw.blocked_ips a
    · intro later q hq
      rw [hcall] at hq
      simp only [FirewallManager.get_blocked_ips] at hq
      obtain ⟨p, hp, hpq⟩ := List.mem_filterMap.mp hq
      have hpk : p.1 ≠ a := dictDel_keys_ne fw.blocked_ips a p hp
      by_cases hc : later < p.2.unblock_time
      · simp only [hc, if_true, Option.some.injEq] at hpq
        rw [← hpq]
        exact hpk
      · simp [hc] at hpq
  · intro fw a now hg
    rw [FirewallManager.is_blocked, hg]

/-- C8 witness: with one entry for address three expiring at time ten, a
query at time ten reports not blocked, deletes the entry, and a later
listing is empty; address four, never blocked, reports false with the
state unchanged; before expiry the query at time nine reports blocked. -/
theorem claim_C8_witness :
    ((⟨600, [(3, ⟨4, 10⟩)]⟩ : FirewallManager).is_blocked 3 9).1 = true ∧
    ((⟨600, [(3, ⟨4, 10⟩)]⟩ : FirewallManager).is_blocked 3 10).1 = false ∧
    dictGet ((⟨600, [(3, ⟨4, 10⟩)]⟩ : FirewallManager).is_blocked 3 10).2.blocked_ips 3 =
      none ∧
    (⟨600, [(3, ⟨4, 10⟩)]⟩ : FirewallManager).is_blocked 4 11 =
      (false, ⟨600, [(3, ⟨4, 10⟩)]⟩) := by
  refine ⟨?_, ?_, ?_, ?_⟩
  · exact (claim_C8.1 ⟨600, [(3, ⟨4, 10⟩)]⟩ 3 9).mpr ⟨⟨4, 10⟩, by decide, by decide⟩
  · exact (claim_C8.2.1 ⟨600, [(3, ⟨4, 10⟩)]⟩ 3 10 ⟨4, 10⟩ (by decide) (by decide)).1
  · exact (claim_C8.2.1 ⟨600, [(3, ⟨4, 10⟩)]⟩ 3 10 ⟨4, 10⟩ (by decide) (by decide)).2.1
  · exact claim_C8.2.2 ⟨600, [(3, ⟨4, 10⟩)]⟩ 4 11 (by decide)

/-!
PacketAnalyzer, embedded from network_monitoring/backend/packet_analyzer.py.

A packet record carries the layers the analyzer inspects (membership tests
TCP in packet and so on), the raw TCP flags byte, addresses, size, and the
wall-clock time at which the packet is processed (the source reads
datetime.now and time.time while handling the packet; both are modelled by
the single time field). Attack events forwarded to the external Firestore
logger are accumulated in an explicit log list; the classification fields
filled in by the external classifier are enrichment and are not modelled.
The per-packet try/except of the source only guards attribute access on
dynamic scapy objects, which is total here.
-/

inductive Proto where
  | TCP
  | UDP
  | ICMP
  | OTHER
deriving DecidableEq

inductive AttackType where
  | synFlood
  | udpFlood
deriving DecidableEq

structure Packet where
  hasIP : Bool
  hasTCP : Bool
  hasUDP : Bool
  hasICMP : Bool
  tcp_flags : Nat
  src : IPAddr
  dst : IPAddr
  size : Nat
  time : Time
deriving DecidableEq

structure ConnEntry where
  dst_ip : IPAddr
  timestamp : Time
  protocol : Proto
deriving DecidableEq

structure AttackEvent where
  timestamp : Time
  attack_type : AttackType
  source_ip : IPAddr
  destination_ip : IPAddr
deriving DecidableEq

structure AnalyzerState where
  syn_detector : SYNDetector
  firewall : FirewallManager
  connections : List (IPAddr × List ConnEntry)
  attack_count : Nat
deriving DecidableEq

structure AnalyzeResults where
  total_packets : Nat
  analyzed_packets : Nat
  attacks_detected : Nat
  blocked_ips : List IPAddr
  syn_flood_events : Nat
  udp_flood_events : Nat
deriving DecidableEq

/-- PacketAnalyzer._get_protocol: first matching layer wins. -/
def get_protocol (p : Packet) : Proto :=
  if p.hasTCP then Proto.TCP
  else if p.hasUDP then Proto.UDP
  else if p.hasICMP then Proto.ICMP
  else Proto.OTHER

/-- PacketAnalyzer._detect_udp_flood: count every stored connection entry
of protocol UDP for the source and fire when that lifetime count exceeds
ten. -/
def detect_udp_flood (connections : List (IPAddr × List ConnEntry)) (src_ip : IPAddr) : Bool :=
  decide (10 < ((dgetD connections src_ip).filter
    (fun e => e.protocol = Proto.UDP)).length)

/-- PacketAnalyzer._process_packet: store the connection entry, then run
the SYN-flood branch for TCP packets whose flags byte equals 0x02 (the
source compares the whole flags value with 0x02, not individual bits), or
otherwise the UDP-flood branch for UDP packets. On a SYN detection the
event is classified and logged unconditionally, and the source is blocked
only if it is not already in the per-run blocked list. On a UDP detection
the event is logged and nothing is blocked. -/
def process_packet (st : AnalyzerState) (res : AnalyzeResults) (log : List AttackEvent)
    (p : Packet) : AnalyzerState × AnalyzeResults × List AttackEvent :=
  let res1 := { res with analyzed_packets := res.analyzed_packets + 1 }
  let entry : ConnEntry := { dst_ip := p.dst, timestamp := p.time, protocol := get_protocol p }
  let conns1 := dictSet st.connections p.src (dgetD st.connections p.src ++ [entry])
  let st1 := { st with connections := conns1 }
  if p.hasTCP && decide (p.tcp_flags = 2) then
    let rd := st1.syn_detector.check_syn_flood p.src p.time
    let st2 := { st1 with syn_detector := rd.2 }
    if rd.1.is_attack then
      let st3 := { st2 with attack_count := st2.attack_count + 1 }
      let res2a := { res1 with attacks_detected := res1.attacks_detected + 1 }
      let res2 := { res2a with syn_flood_events := res2a.syn_flood_events + 1 }
      let ev : AttackEvent := ⟨p.time, AttackType.synFlood, p.src, p.dst⟩
      let log2 := log ++ [ev]
      if p.src ∈ res2.blocked_ips then (st3, res2, log2)
      else
        let st4 := { st3 with firewall := (st3.firewall.block_ip p.src p.time).2 }
        (st4, { res2 with blocked_ips := res2.blocked_ips ++ [p.src] }, log2)
    else (st2, res1, log)
  else if p.hasUDP then
    if detect_udp_flood st1.connections p.src then
      let st2 := { st1 with attack_count := st1.attack_count + 1 }
      let res2a := { res1 with attacks_detected := res1.attacks_detected + 1 }
      let res2 := { res2a with udp_flood_events := res2a.udp_flood_events + 1 }
      let ev : AttackEvent := ⟨p.time, AttackType.udpFlood, p.src, p.dst⟩
      (st2, res2, log ++ [ev])
    else (st1, res1, log)
  else (st1, res1, log)

/-- One iteration of the analyze_pcap loop: only packets with an IP layer
are processed. -/
def analyzeStep (acc : AnalyzerState × AnalyzeResults × List AttackEvent) (p : Packet) :
    AnalyzerState × AnalyzeResults × List AttackEvent :=
  if p.hasIP then process_packet acc.1 acc.2.1 acc.2.2 p else acc

/-- PacketAnalyzer.analyze_pcap: fresh results for this run, process every
packet with an IP layer in order, then overwrite attacks_detected in the
results with the analyzer lifetime attack counter (line 35 of the
source). -/
def analyze_pcap (st : AnalyzerState) (log : List AttackEvent) (packets : List Packet) :
    AnalyzerState × AnalyzeResults × List AttackEvent :=
  let res0 : AnalyzeResults := ⟨packets.length, 0, 0, [], 0, 0⟩
  let fin := packets.foldl analyzeStep (st, res0, log)
  (fin.1, { fin.2.1 with attacks_detected := fin.1.attack_count }, fin.2.2)

/-- A pure UDP packet as the analyzer sees it. -/
def udpPacket (src dst : IPAddr) (sz : Nat) (t : Time) : Packet :=
  { hasIP := true, hasTCP := false, hasUDP := true, hasICMP := false,
    tcp_flags := 0, src := src, dst := dst, size := sz, time := t }

/-- A pure TCP SYN packet (flags byte exactly 0x02) as the analyzer sees
it. -/
def synPacket (src dst : IPAddr) (sz : Nat) (t : Time) : Packet :=
  { hasIP := true, hasTCP := true, hasUDP := false, hasICMP := false,
    tcp_flags := 2, src := src, dst := dst, size := sz, time := t }

/-- The stored lifetime count of UDP connection entries for a source. -/
def udpConnCount (connections : List (IPAddr × List ConnEntry)) (src_ip : IPAddr) : Nat :=
  ((dgetD connections src_ip).filter (fun e => e.protocol = Proto.UDP)).length

theorem udpConnCount_append_udp (m : List (IPAddr × List ConnEntry)) (src_ip : IPAddr)
    (e : ConnEntry) (he : e.protocol = Proto.UDP) :
    udpConnCount (dictSet m src_ip (dgetD m src_ip ++ [e])) src_ip =
      udpConnCount m src_ip + 1 := by
  simp [udpConnCount, dgetD, dictGet_dictSet_self, List.filter_append, he]

theorem udpConnCount_append_other (m : List (IPAddr × List ConnEntry)) (src_ip : IPAddr)
    (e : ConnEntry) (he : e.protocol ≠ Proto.UDP) :
    udpConnCount (dictSet m src_ip (dgetD m src_ip ++ [e])) src_ip =
      udpConnCount m src_ip := by
  simp [udpConnCount, dgetD, dictGet_dictSet_self, List.filter_append, he]

theorem detect_udp_flood_append (m : List (IPAddr × List ConnEntry)) (src_ip : IPAddr)
    (e : ConnEntry) (he : e.protocol = Proto.UDP) :
    detect_udp_flood (dictSet m src_ip (dgetD m src_ip ++ [e])) src_ip =
      decide (10 < udpConnCount m src_ip + 1) := by
  have h := udpConnCount_append_udp m src_ip e he
  simp only [detect_udp_flood, udpConnCount] at h ⊢
  rw [h]

/-- Processing one pure UDP packet: stored connections for the source gain
one UDP entry. -/
theorem process_packet_udp_conns (st : AnalyzerState) (res : AnalyzeResults)
    (log : List AttackEvent) (src dst : IPAddr) (sz : Nat) (t : Time) :
    (process_packet st res log (udpPacket src dst sz t)).1.connections =
      dictSet st.connections src (dgetD st.connections src ++ [⟨dst, t, Proto.UDP⟩]) := by
  by_cases h : 10 < udpConnCount st.connections src + 1 <;>
    simp [process_packet, udpPacket, get_protocol,
      detect_udp_flood_append st.connections src ⟨dst, t, Proto.UDP⟩ rfl, h]

/-- Processing one pure UDP packet: the log grows by one UDP-flood event
exactly when the stored lifetime UDP count, including this packet, exceeds
ten. -/
theorem process_packet_udp_log (st : AnalyzerState) (res : AnalyzeResults)
    (log : List AttackEvent) (src dst : IPAddr) (sz : Nat) (t : Time) :
    (process_packet st res log (udpPacket src dst sz t)).2.2 =
      if 10 < udpConnCount st.connections src + 1 then
        log ++ [⟨t, AttackType.udpFlood, src, dst⟩] else log := by
  by_cases h : 10 < udpConnCount st.connections src + 1 <;>
    simp [process_packet, udpPacket, get_protocol,
      detect_udp_flood_append st.connections src ⟨dst, t, Proto.UDP⟩ rfl, h]

/-- Folding a sequence of pure UDP packets from one source: the log gains
one UDP-flood event for every packet whose running lifetime count exceeds
ten. -/
theorem udp_fold_events (src dst : IPAddr) (sz : Nat) (ts : List Time) :
    ∀ (st : AnalyzerState) (res : AnalyzeResults) (log : List AttackEvent),
      ∃ extra : List AttackEvent,
        ((ts.map (udpPacket src dst sz)).foldl analyzeStep (st, res, log)).2.2 =
          log ++ extra ∧
        extra.length = udpConnCount st.connections src + ts.length -
          max (udpConnCount st.connections src) 10 ∧
        ∀ e ∈ extra, e.attack_type = AttackType.udpFlood ∧ e.source_ip = src ∧
          e.destination_ip = dst := by
  induction ts with
  | nil =>
    intro st res log
    refine ⟨[], by simp, ?_, by simp⟩
    have hle : udpConnCount st.connections src ≤ max (udpConnCount st.connections src) 10 :=
      Nat.le_max_left _ _
    simp only [List.length_nil, List.length_nil]
    omega
  | cons t ts ih =>
    intro st res log
    simp only [List.map_cons, List.foldl_cons]
    have hstep : analyzeStep (st, res, log) (udpPacket src dst sz t) =
        process_packet st res log (udpPacket src dst sz t) := by
      simp [analyzeStep, udpPacket]
    rw [hstep]
    have hacc : process_packet st res log (udpPacket src dst sz t) =
        ((process_packet st res log (udpPacket src dst sz t)).1,
         (process_packet st res log (udpPacket src dst sz t)).2.1,
         (process_packet st res log (udpPacket src dst sz t)).2.2) := rfl
    rw [hacc]
    obtain ⟨extra, h1, h2, h3⟩ := ih (process_packet st res log (udpPacket src dst sz t)).1
      (process_packet st res log (udpPacket src dst sz t)).2.1
      (process_packet st res log (udpPacket src dst sz t)).2.2
    rw [process_packet_udp_conns, udpConnCount_append_udp st.connections src _ rfl] at h2
    by_cases h : 10 < udpConnCount st.connections src + 1
    · refine ⟨⟨t, AttackType.udpFlood, src, dst⟩ :: extra, ?_, ?_, ?_⟩
      · rw [h1, process_packet_udp_log, if_pos h, List.append_assoc]
        rfl
      · have hm1 : max (udpConnCount st.connections src) 10 =
            udpConnCount st.connections src := Nat.max_eq_left (by omega)
        have hm2 : max (udpConnCount st.connections src + 1) 10 =
            udpConnCount st.connections src + 1 := Nat.max_eq_left (by omega)
        rw [hm2] at h2
        rw [hm1]
        simp only [List.length_cons]
        omega
      · intro e he
        rcases List.mem_cons.mp he with he | he
        · rw [he]
          exact ⟨rfl, rfl, rfl⟩
        · exact h3 e he
    · refine ⟨extra, ?_, ?_, h3⟩
      · rw [h1, process_packet_udp_log, if_neg h]
      · have hm1 : max (udpConnCount st.connections src) 10 = 10 :=
          Nat.max_eq_right (by omega)
        have hm2 : max (udpConnCount st.connections src + 1) 10 = 10 :=
          Nat.max_eq_right (by omega)
        rw [hm2] at h2
        rw [hm1]
        simp only [List.length_cons]
        omega

/-- C9: the analyzer UDP-flood check counts all UDP packets ever stored
for the source in this session, with no time window: over any sequence of
n pure UDP packets from one source, at arbitrary times, it logs one
UDP-flood event per packet past the tenth, that is n - 10 events in all,
firing on every packet once past the threshold. -/
theorem claim_C9 (det : SYNDetector) (fw : FirewallManager) (src dst : IPAddr) (sz : Nat)
    (ts : List Time) :
    ((analyze_pcap ⟨det, fw, [], 0⟩ [] (ts.map (udpPacket src dst sz))).2.2).length =
      ts.length - 10 ∧
    ∀ e ∈ (analyze_pcap ⟨det, fw, [], 0⟩ [] (ts.map (udpPacket src dst sz))).2.2,
      e.attack_type = AttackType.udpFlood ∧ e.source_ip = src ∧ e.destination_ip = dst := by
  obtain ⟨extra, h1, h2, h3⟩ := udp_fold_events src dst sz ts ⟨det, fw, [], 0⟩
    ⟨(ts.map (udpPacket src dst sz)).length, 0, 0, [], 0, 0⟩ []
  have hzero : udpConnCount (⟨det, fw, [], 0⟩ : AnalyzerState).connections src = 0 := by
    simp [udpConnCount, dgetD, dictGet]
  rw [hzero] at h2
  constructor
  · show ((ts.map (udpPacket src dst sz)).foldl analyzeStep
      (⟨det, fw, [], 0⟩, ⟨(ts.map (udpPacket src dst sz)).length, 0, 0, [], 0, 0⟩, [])).2.2.length
      = ts.length - 10
    rw [h1]
    simp only [List.nil_append]
    omega
  · show ∀ e ∈ ((ts.map (udpPacket src dst sz)).foldl analyzeStep
      (⟨det, fw, [], 0⟩, ⟨(ts.map (udpPacket src dst sz)).length, 0, 0, [], 0, 0⟩, [])).2.2,
      e.attack_type = AttackType.udpFlood ∧ e.source_ip = src ∧ e.destination_ip = dst
    rw [h1]
    simpa using h3

/-- Claim-side predicate, written from the words of the specification for
comparison with the code: a record that is TCP with the SYN flag bit set
and the ACK flag bit clear, regardless of any other flag bits. -/
def spec_syn_no_ack (p : Packet) : Bool :=
  p.hasTCP && p.tcp_flags.testBit 1 && !(p.tcp_flags.testBit 4)

/-- C6 counterexample: a TCP packet with flags 0x0A (SYN and PSH set, ACK
clear) satisfies the claim predicate, yet processing it leaves the SYN
detector untouched, because the source compares the whole flags byte with
0x02: the Flood Detector is not called for this record. -/
theorem claim_C6_counterexample :
    spec_syn_no_ack ⟨true, true, false, false, 10, 5, 1, 60, 0⟩ = true ∧
    (process_packet ⟨SYNDetector.init 5 2, FirewallManager.init 10, [], 0⟩
        ⟨1, 0, 0, [], 0, 0⟩ [] ⟨true, true, false, false, 10, 5, 1, 60, 0⟩).1.syn_detector =
      SYNDetector.init 5 2 := by
  decide

/-- C6 amended: the analyzer hands a record to the Flood Detector exactly
when the record is TCP and its flags byte equals 0x02 (SYN alone); TCP
records with SYN plus any other flag, records with ACK set, and non-TCP
records never reach the SYN detector. -/
theorem claim_C6_amended (st : AnalyzerState) (res : AnalyzeResults) (log : List AttackEvent)
    (p : Packet) :
    (process_packet st res log p).1.syn_detector =
      (if p.hasTCP && decide (p.tcp_flags = 2)
       then (st.syn_detector.check_syn_flood p.src p.time).2
       else st.syn_detector) := by
  simp only [process_packet]
  split_ifs <;> rfl

/-- The analyzer as wired in app.py: detector with threshold five and
window two seconds, firewall with a ten-minute block duration, no stored
connections, zero lifetime attack count. -/
def analyzer0 : AnalyzerState :=
  ⟨SYNDetector.init 5 2, FirewallManager.init 10, [], 0⟩

/-- The C1 scenario: six pure SYN packets from source five to destination
one within two seconds. -/
def c1Packets6 : List Packet :=
  ([0, 0, 1, 1, 2, 2] : List Time).map (synPacket 5 1 60)

/-- The C1 scenario extended by a seventh SYN packet from the same source
inside the same window. -/
def c1Packets7 : List Packet :=
  ([0, 0, 1, 1, 2, 2, 2] : List Time).map (synPacket 5 1 60)

/-- C1 counterexample: on the six-SYN scenario the run logs two SYN Flood
events, not exactly one: the event emission is repeated for the sixth
packet, only the block is deduplicated. -/
theorem claim_C1_counterexample :
    ((analyze_pcap analyzer0 [] c1Packets6).2.2.filter
      (fun e => e.attack_type = AttackType.synFlood)).length = 2 ∧
    ¬ ((analyze_pcap analyzer0 [] c1Packets6).2.2.filter
      (fun e => e.attack_type = AttackType.synFlood)).length = 1 := by
  decide

/-- C1 amended: on the six-SYN scenario the analyzer logs one SYN Flood
event per packet at or past the threshold (the fifth and sixth packets,
two events), blocks source five exactly once, for the configured duration
of six hundred seconds starting at the blocking packet time; a seventh SYN
from the same source inside the window adds one more event but no further
block. -/
theorem claim_C1_amended :
    (analyze_pcap analyzer0 [] c1Packets6).2.2 =
      [⟨2, AttackType.synFlood, 5, 1⟩, ⟨2, AttackType.synFlood, 5, 1⟩] ∧
    (analyze_pcap analyzer0 [] c1Packets6).2.1.blocked_ips = [5] ∧
    (analyze_pcap analyzer0 [] c1Packets6).1.firewall.blocked_ips = [(5, ⟨2, 602⟩)] ∧
    (analyze_pcap analyzer0 [] c1Packets7).2.2.length = 3 ∧
    (analyze_pcap analyzer0 [] c1Packets7).2.1.blocked_ips = [5] ∧
    (analyze_pcap analyzer0 [] c1Packets7).1.firewall.blocked_ips = [(5, ⟨2, 602⟩)] := by
  decide

/-!
ETLPipeline, embedded from network_monitoring/backend/etl_pipeline.py.

Extraction sources are abstracted: a file carries whether its name ends in
a pcap extension and whether rdpcap can read it, a directory carries its
pcap files (each with the same readable flag), and a missing path is its
own case. A raw packet carries the layers and fields _transform_packet
reads; its time field is none when converting the capture timestamp
raises (for instance datetime.fromtimestamp overflowing on a corrupt
64-bit pcapng timestamp), which makes _transform_packet swallow the error
and return None. The start and end wall-clock times of the stats dict are
not modelled. The Firestore sink is abstracted by a behavior oracle: batch
writes cannot fail the pipeline because _load_batch catches every error
and falls back to a local file (itself guarded by its own try block), so
only per-attack log_attack failures are observable, counted in the errors
field of the load statistics.
-/

namespace ETL

inductive EProto where
  | TCP
  | UDP
  | ICMP
  | ARP
  | OTHER
  | NONIP
deriving DecidableEq

structure RawPacket where
  time : Option Time
  size : Nat
  hasEther : Bool
  hasIP : Bool
  hasTCP : Bool
  hasUDP : Bool
  hasICMP : Bool
  hasARP : Bool
  tcp_flags : Nat
  src_ip : IPAddr
  dst_ip : IPAddr
  src_port : Nat
  dst_port : Nat
deriving DecidableEq

/-- The packet_data dict built by ETLPipeline._transform_packet. Fields the
pipeline only stores but never reads back (mac addresses, ip header fields,
tcp sequence numbers and so on) are omitted; protocol is always present
(NONIP for packets without an IP layer); src_ip and dst_ip are present
exactly for IP packets (the ARP branch of the source is nested under the
IP check and also sets them); ports are present for TCP and UDP only;
tcp_syn and tcp_ack model tcp_flags given that _detect_attacks reads
missing keys as falsy. -/
structure PacketData where
  packet_index : Nat
  timestamp : Time
  packet_size : Nat
  protocol : EProto
  src_ip : Option IPAddr
  dst_ip : Option IPAddr
  src_port : Option Nat
  dst_port : Option Nat
  tcp_syn : Bool
  tcp_ack : Bool
deriving DecidableEq

/-- ETLPipeline._transform_packet: none exactly when the timestamp
conversion raises (the function catches its own exceptions and returns
None); otherwise the layer dispatch of the source, nested under the IP
check, with the TCP flag bits taken from the flags byte. -/
def transform_packet (p : RawPacket) (index : Nat) : Option PacketData :=
  match p.time with
  | none => none
  | some t =>
    if p.hasIP then
      if p.hasTCP then
        some { packet_index := index, timestamp := t, packet_size := p.size,
               protocol := EProto.TCP, src_ip := some p.src_ip, dst_ip := some p.dst_ip,
               src_port := some p.src_port, dst_port := some p.dst_port,
               tcp_syn := decide (p.tcp_flags &&& 2 ≠ 0),
               tcp_ack := decide (p.tcp_flags &&& 16 ≠ 0) }
      else if p.hasUDP then
        some { packet_index := index, timestamp := t, packet_size := p.size,
               protocol := EProto.UDP, src_ip := some p.src_ip, dst_ip := some p.dst_ip,
               src_port := some p.src_port, dst_port := some p.dst_port,
               tcp_syn := false, tcp_ack := false }
      else if p.hasICMP then
        some { packet_index := index, timestamp := t, packet_size := p.size,
               protocol := EProto.ICMP, src_ip := some p.src_ip, dst_ip := some p.dst_ip,
               src_port := none, dst_port := none, tcp_syn := false, tcp_ack := false }
      else if p.hasARP then
        some { packet_index := index, timestamp := t, packet_size := p.size,
               protocol := EProto.ARP, src_ip := some p.src_ip, dst_ip := some p.dst_ip,
               src_port := none, dst_port := none, tcp_syn := false, tcp_ack := false }
      else
        some { packet_index := index, timestamp := t, packet_size := p.size,
               protocol := EProto.OTHER, src_ip := some p.src_ip, dst_ip := some p.dst_ip,
               src_port := none, dst_port := none, tcp_syn := false, tcp_ack := false }
    else
      some { packet_index := index, timestamp := t, packet_size := p.size,
             protocol := EProto.NONIP, src_ip := none, dst_ip := none,
             src_port := none, dst_port := none, tcp_syn := false, tcp_ack := false }

/-- One row of the per-address statistics table of ETLPipeline.transform.
The Python dict gains syn_packet_count and udp_packet_count lazily inside
_detect_attacks, reading a missing key as zero; both start at zero here. -/
structure IPStat where
  packet_count : Nat
  bytes_sent : Nat
  bytes_received : Nat
  protocols : List EProto
  ports : List Nat
  first_seen : Time
  last_seen : Time
  syn_packet_count : Nat
  udp_packet_count : Nat
deriving DecidableEq

/-- Python set.add on a set modelled as a duplicate-free list in insertion
order. -/
def setAdd {α : Type} [DecidableEq α] (s : List α) (a : α) : List α :=
  if a ∈ s then s else s ++ [a]

inductive Dir where
  | src
  | dst
deriving DecidableEq

/-- The fresh row _update_ip_stats creates on first sight of an address,
with first and last seen at the packet timestamp. -/
def freshIPStat (t : Time) : IPStat :=
  { packet_count := 0, bytes_sent := 0, bytes_received := 0, protocols := [],
    ports := [], first_seen := t, last_seen := t, syn_packet_count := 0,
    udp_packet_count := 0 }

/-- The field updates _update_ip_stats applies to a row: bump the packet
count, add the size to the sent or received bytes, record protocol and
port, refresh last_seen. The trailing first_seen backfill of the source is
a no-op because first_seen is always set at creation. -/
def bumpIPStat (s0 : IPStat) (pd : PacketData) (dir : Dir) : IPStat :=
  let s1 := { s0 with packet_count := s0.packet_count + 1 }
  let s2 := match dir with
    | Dir.src => { s1 with bytes_sent := s1.bytes_sent + pd.packet_size }
    | Dir.dst => { s1 with bytes_received := s1.bytes_received + pd.packet_size }
  let s3 := { s2 with protocols := setAdd s2.protocols pd.protocol }
  let s4 := match (match dir with | Dir.src => pd.src_port | Dir.dst => pd.dst_port) with
    | some prt => { s3 with ports := setAdd s3.ports prt }
    | none => s3
  { s4 with last_seen := pd.timestamp }

/-- ETLPipeline._update_ip_stats: no-op when the directed address is
absent from the record, otherwise create or update its row. -/
def update_ip_stats (m : List (IPAddr × IPStat)) (pd : PacketData) (dir : Dir) :
    List (IPAddr × IPStat) :=
  match (match dir with | Dir.src => pd.src_ip | Dir.dst => pd.dst_ip) with
  | none => m
  | some ip =>
    let s0 := match dictGet m ip with
      | some s => s
      | none => freshIPStat pd.timestamp
    dictSet m ip (bumpIPStat s0 pd dir)

/-- The connection key src:dst:protocol of _get_connection_key, kept as a
triple (the string encoding is injective for these components). -/
abbrev ConnKey := IPAddr × IPAddr × EProto

def get_connection_key (src_ip dst_ip : IPAddr) (protocol : EProto) : ConnKey :=
  (src_ip, dst_ip, protocol)

structure ConnRecord where
  src_ip : IPAddr
  dst_ip : IPAddr
  protocol : EProto
  packet_count : Nat
  bytes_transferred : Nat
  first_seen : Time
  last_seen : Time
  src_port : Option Nat
  dst_port : Option Nat
deriving DecidableEq

/-- The fresh connection row of ETLPipeline.transform, created with zero
counters before the unconditional per-packet update. -/
def freshConn (s d : IPAddr) (pd : PacketData) : ConnRecord :=
  { src_ip := s, dst_ip := d, protocol := pd.protocol, packet_count := 0,
    bytes_transferred := 0, first_seen := pd.timestamp, last_seen := pd.timestamp,
    src_port := pd.src_port, dst_port := pd.dst_port }

/-- The unconditional per-packet connection update: bump the packet count,
add the size, refresh last_seen. -/
def connTouch (c : ConnRecord) (pd : PacketData) : ConnRecord :=
  let c1 := { c with packet_count := c.packet_count + 1 }
  let c2 := { c1 with bytes_transferred := c1.bytes_transferred + pd.packet_size }
  { c2 with last_seen := pd.timestamp }

/-- The connection-tracking block of the transform loop: runs only when
both addresses are present; the boolean reports whether a new row was
created (which increments connections_created). -/
def connStep (cm : List (ConnKey × ConnRecord)) (pd : PacketData) :
    List (ConnKey × ConnRecord) × Bool :=
  match pd.src_ip, pd.dst_ip with
  | some s, some d =>
    let key := get_connection_key s d pd.protocol
    (match dictGet cm key with
     | none => (dictSet cm key (connTouch (freshConn s d pd) pd), true)
     | some c => (dictSet cm key (connTouch c pd), false))
  | _, _ => (cm, false)

inductive Severity where
  | high
  | medium
deriving DecidableEq

/-- An attack row of _detect_attacks: attack type, source, destination,
severity, running qualifying-packet count, packet timestamp (the nested
details dict is derived data). -/
structure AttackRecord where
  attack_type : AttackType
  source_ip : IPAddr
  destination_ip : Option IPAddr
  severity : Severity
  packet_count : Nat
  timestamp : Time
deriving DecidableEq

/-- ETLPipeline._detect_attacks: for a record with a source address, a TCP
record with SYN set and ACK clear bumps the per-source lifetime SYN
counter and reports a SYN Flood once that counter exceeds five; a UDP
record bumps the lifetime UDP counter and reports a UDP Flood once it
exceeds one hundred; the counters live in the ip statistics table and the
bump happens only when the source already has a row there (it always does
inside the transform loop, which updates the table first). -/
def detect_attacks (pd : PacketData) (m : List (IPAddr × IPStat)) :
    Option AttackRecord × List (IPAddr × IPStat) :=
  match pd.src_ip with
  | none => (none, m)
  | some src =>
    if pd.protocol = EProto.TCP ∧ pd.tcp_syn = true ∧ pd.tcp_ack = false then
      match dictGet m src with
      | none => (none, m)
      | some s =>
        let syn_count := s.syn_packet_count + 1
        let m1 := dictSet m src { s with syn_packet_count := syn_count }
        if 5 < syn_count then
          (some ⟨AttackType.synFlood, src, pd.dst_ip, Severity.high, syn_count,
            pd.timestamp⟩, m1)
        else (none, m1)
    else if pd.protocol = EProto.UDP then
      match dictGet m src with
      | none => (none, m)
      | some s =>
        let udp_count := s.udp_packet_count + 1
        let m1 := dictSet m src { s with udp_packet_count := udp_count }
        if 100 < udp_count then
          (some ⟨AttackType.udpFlood, src, pd.dst_ip, Severity.medium, udp_count,
            pd.timestamp⟩, m1)
        else (none, m1)
    else (none, m)

/-- The ETL stats counters of ETLPipeline.__init__ (start and end times
omitted). -/
structure Stats where
  total_packets : Nat
  processed_packets : Nat
  failed_packets : Nat
  connections_created : Nat
  attacks_detected : Nat
deriving DecidableEq

def Stats.zero : Stats := ⟨0, 0, 0, 0, 0⟩

def Stats.add (a b : Stats) : Stats :=
  ⟨a.total_packets + b.total_packets, a.processed_packets + b.processed_packets,
   a.failed_packets + b.failed_packets, a.connections_created + b.connections_created,
   a.attacks_detected + b.attacks_detected⟩

structure TransformAcc where
  stats : Stats
  packets : List PacketData
  attacks : List AttackRecord
  connections_map : List (ConnKey × ConnRecord)
  ip_stats : List (IPAddr × IPStat)
deriving DecidableEq

/-- One iteration of the transform loop over an enumerated packet. When
_transform_packet returns None the record is skipped with no counter
change: the except branch of the loop, the only place failed_packets is
incremented, is unreachable, because _transform_packet catches its own
exceptions and the remaining loop body (dict and set updates on data the
loop itself created) cannot raise. -/
def transformStep (acc : TransformAcc) (index : Nat) (p : RawPacket) : TransformAcc :=
  match transform_packet p index with
  | none => acc
  | some pd =>
    let ip1 := update_ip_stats acc.ip_stats pd Dir.src
    let ip2 := update_ip_stats ip1 pd Dir.dst
    let connUpd := connStep acc.connections_map pd
    let da := detect_attacks pd ip2
    let stats1 := { acc.stats with processed_packets := acc.stats.processed_packets + 1 }
    let stats2 :=
      if connUpd.2 then
        { stats1 with connections_created := stats1.connections_created + 1 }
      else stats1
    let stats3 :=
      if da.1.isSome then
        { stats2 with attacks_detected := stats2.attacks_detected + 1 }
      else stats2
    { stats := stats3, packets := acc.packets ++ [pd],
      attacks := acc.attacks ++ da.1.toList,
      connections_map := connUpd.1, ip_stats := da.2 }

/-- The for idx, packet in enumerate loop of ETLPipeline.transform. -/
def transformLoop (acc : TransformAcc) (index : Nat) : List RawPacket → TransformAcc
  | [] => acc
  | p :: rest => transformLoop (transformStep acc index p) (index + 1) rest

structure TransformedData where
  packets : List PacketData
  connections : List ConnRecord
  attacks : List AttackRecord
  ip_statistics : List (IPAddr × IPStat)
deriving DecidableEq

/-- ETLPipeline.transform: run the loop from empty tables, then list the
connection rows in insertion order and attach the ip statistics. -/
def transform (stats : Stats) (pkts : List RawPacket) : TransformedData × Stats :=
  let acc := transformLoop ⟨stats, [], [], [], []⟩ 0 pkts
  (⟨acc.packets, acc.connections_map.map Prod.snd, acc.attacks, acc.ip_stats⟩, acc.stats)

end ETL

namespace ETL

/-- An extraction source: a single file (with its extension check and
readability), a directory already narrowed to its pcap-named files, or a
missing path. -/
inductive Source where
  | file (ext_ok : Bool) (readable : Bool) (packets : List RawPacket)
  | dir (files : List (Bool × List RawPacket))
  | missing

/-- ETLPipeline.extract: a readable pcap-named file yields its packets and
sets total_packets; a directory must contain at least one pcap file and
every file must be readable, else the raised error leaves the stats
untouched; a missing path raises. -/
def extract (stats : Stats) (src : Source) : Except Unit (List RawPacket) × Stats :=
  match src with
  | Source.file ext_ok readable pkts =>
    if ext_ok then
      if readable then (Except.ok pkts, { stats with total_packets := pkts.length })
      else (Except.error (), stats)
    else (Except.error (), stats)
  | Source.dir files =>
    if files.isEmpty then (Except.error (), stats)
    else if files.any (fun f => !f.1) then (Except.error (), stats)
    else
      let pkts := (files.map Prod.snd).flatten
      (Except.ok pkts, { stats with total_packets := pkts.length })
  | Source.missing => (Except.error (), stats)

/-- The sink oracle: whether the i-th log_attack call of the load phase
succeeds. Batch commits have no observable failure mode: _load_batch
catches its own errors and degrades to the local-file fallback, which is
itself wrapped in a try block that only prints on failure. -/
structure SinkBehavior where
  attackOk : Nat → Bool

structure LoadStats where
  packets_loaded : Nat
  connections_loaded : Nat
  attacks_loaded : Nat
  errors : Nat
deriving DecidableEq

/-- The batches of the Python slicing loop for a positive batch size,
written with a structural fuel argument (each step consumes at least one
element, so fuel equal to the list length always suffices); the value for
batch size zero is irrelevant because load raises first. -/
def chunksAux {α : Type} (bs : Nat) : Nat → List α → List (List α)
  | _, [] => []
  | 0, _ :: _ => []
  | fuel + 1, x :: xs => (x :: xs.take (bs - 1)) :: chunksAux bs fuel (xs.drop (bs - 1))

def chunks {α : Type} (bs : Nat) (l : List α) : List (List α) :=
  chunksAux bs l.length l

/-- ETLPipeline.load: with a zero batch size and records to batch, the
range call raises ValueError and load re-raises it; otherwise every batch
is counted as loaded whether or not the sink accepted it (the fallback is
silent), and each attack is loaded or counted as an error according to the
sink. -/
def load (td : TransformedData) (b : SinkBehavior) (batch_size : Nat) :
    Except Unit LoadStats :=
  if batch_size = 0 ∧ (td.packets ≠ [] ∨ td.connections ≠ []) then Except.error ()
  else
    let packets_loaded := ((chunks batch_size td.packets).map List.length).sum
    let connections_loaded := ((chunks batch_size td.connections).map List.length).sum
    let ae := (List.range td.attacks.length).foldl
      (fun (acc : Nat × Nat) i => if b.attackOk i then (acc.1 + 1, acc.2) else (acc.1, acc.2 + 1))
      (0, 0)
    Except.ok ⟨packets_loaded, connections_loaded, ae.1, ae.2⟩

/-- The result dict of ETLPipeline.run: success, the stats counters, and
the load statistics when the load phase ran to completion. -/
structure RunResult where
  success : Bool
  stats : Stats
  load_stats : Option LoadStats
deriving DecidableEq

/-- ETLPipeline.run: extract, transform, load in sequence; any raise is
caught and reported as success false with the stats accumulated so far;
otherwise success true with the merged statistics. -/
def run (stats : Stats) (src : Source) (b : SinkBehavior) (batch_size : Nat) :
    RunResult × Stats :=
  match extract stats src with
  | (Except.error _, stats1) => (⟨false, stats1, none⟩, stats1)
  | (Except.ok pkts, stats1) =>
    let ts := transform stats1 pkts
    match load ts.1 b batch_size with
    | Except.error _ => (⟨false, ts.2, none⟩, ts.2)
    | Except.ok ls => (⟨true, ts.2, some ls⟩, ts.2)

/-- Whether an Except value is a success. -/
def isOkE {ε α : Type} : Except ε α → Bool
  | Except.ok _ => true
  | Except.error _ => false

/-- The conditions under which extraction fails, read off the source
paths: missing path, wrong extension or unreadable file, empty directory
or a directory with an unreadable pcap file. -/
def extractFails : Source → Prop
  | Source.file ext_ok readable _ => ext_ok = false ∨ readable = false
  | Source.dir files => files = [] ∨ ∃ f ∈ files, f.1 = false
  | Source.missing => True

/-- A well-formed one-packet capture: a decodable UDP packet. -/
def goodPacket : RawPacket :=
  { time := some 0, size := 60, hasEther := true, hasIP := true, hasTCP := false,
    hasUDP := true, hasICMP := false, hasARP := false, tcp_flags := 0,
    src_ip := 5, dst_ip := 1, src_port := 1000, dst_port := 80 }

/-- A raw packet whose capture timestamp cannot be converted, so that
_transform_packet returns None: for instance a corrupt 64-bit pcapng
timestamp on which datetime.fromtimestamp raises OverflowError. -/
def badPacket : RawPacket :=
  { time := none, size := 60, hasEther := true, hasIP := true, hasTCP := true,
    hasUDP := false, hasICMP := false, hasARP := false, tcp_flags := 2,
    src_ip := 5, dst_ip := 1, src_port := 1000, dst_port := 80 }

/-- A qualifying SYN-without-ACK TCP raw packet for the batch detector. -/
def synRaw (src dst : IPAddr) (t : Time) : RawPacket :=
  { time := some t, size := 60, hasEther := true, hasIP := true, hasTCP := true,
    hasUDP := false, hasICMP := false, hasARP := false, tcp_flags := 2,
    src_ip := src, dst_ip := dst, src_port := 1000, dst_port := 80 }

/-- A UDP raw packet for the batch detector. -/
def udpRaw (src dst : IPAddr) (t : Time) : RawPacket :=
  { time := some t, size := 60, hasEther := true, hasIP := true, hasTCP := false,
    hasUDP := true, hasICMP := false, hasARP := false, tcp_flags := 0,
    src_ip := src, dst_ip := dst, src_port := 1000, dst_port := 80 }

end ETL

/-- C3: evaluation of the pipeline at the failing input. A capture file
containing one packet whose timestamp conversion raises makes
_transform_packet return None; the loop then skips the record without
touching any counter, because the except branch that increments
failed_packets is unreachable (the inner function swallows its own
exception). The run ends with total_packets one, processed_packets zero
and failed_packets zero, violating the invariant that total equals
processed plus failed. -/
theorem claim_C3_failing_run :
    (ETL.run ETL.Stats.zero (ETL.Source.file true true [ETL.badPacket])
      ⟨fun _ => true⟩ 100).1.stats.total_packets = 1 ∧
    (ETL.run ETL.Stats.zero (ETL.Source.file true true [ETL.badPacket])
      ⟨fun _ => true⟩ 100).1.stats.processed_packets = 0 ∧
    (ETL.run ETL.Stats.zero (ETL.Source.file true true [ETL.badPacket])
      ⟨fun _ => true⟩ 100).1.stats.failed_packets = 0 ∧
    ¬ ((ETL.run ETL.Stats.zero (ETL.Source.file true true [ETL.badPacket])
      ⟨fun _ => true⟩ 100).1.stats.total_packets =
      (ETL.run ETL.Stats.zero (ETL.Source.file true true [ETL.badPacket])
        ⟨fun _ => true⟩ 100).1.stats.processed_packets +
      (ETL.run ETL.Stats.zero (ETL.Source.file true true [ETL.badPacket])
        ⟨fun _ => true⟩ 100).1.stats.failed_packets) := by
  decide

/-- C4 counterexample: a run over a readable one-packet capture with batch
size zero: extraction succeeds, yet the range call of the load phase
raises, load re-raises, and run reports success false, although the
source is neither missing nor invalid nor an empty directory. -/
theorem claim_C4_counterexample :
    ETL.isOkE (ETL.extract ETL.Stats.zero
      (ETL.Source.file true true [ETL.goodPacket])).1 = true ∧
    (ETL.run ETL.Stats.zero (ETL.Source.file true true [ETL.goodPacket])
      ⟨fun _ => true⟩ 0).1.success = false := by
  decide

/-- For a positive batch size the load phase always completes. -/
theorem load_ok_of_pos (td : ETL.TransformedData) (b : ETL.SinkBehavior) (bs : Nat)
    (hbs : 1 ≤ bs) : ∃ ls, ETL.load td b bs = Except.ok ls := by
  unfold ETL.load
  rw [if_neg]
  · exact ⟨_, rfl⟩
  · rintro ⟨h0, _⟩
    omega

/-- C4 amended: run always returns the structured result; with a positive
batch size, success is true exactly when extraction succeeded, whatever
the sink does, and extraction fails exactly for a missing path, a file
with the wrong extension or unreadable contents, or a directory that is
empty or holds an unreadable capture file; the load statistics are present
exactly on success. With a zero batch size and records to load, the range
call of the load phase raises and success is false despite a successful
extraction. -/
theorem claim_C4_amended (s : ETL.Stats) (src : ETL.Source) (b : ETL.SinkBehavior)
    (bs : Nat) (hbs : 1 ≤ bs) :
    ((ETL.run s src b bs).1.success = true ↔ ETL.isOkE (ETL.extract s src).1 = true) ∧
    (ETL.isOkE (ETL.extract s src).1 = false ↔ ETL.extractFails src) ∧
    (ETL.run s src b bs).1.load_stats.isSome = (ETL.run s src b bs).1.success := by
  have hmain : ((ETL.run s src b bs).1.success = true ↔
      ETL.isOkE (ETL.extract s src).1 = true) ∧
      (ETL.run s src b bs).1.load_stats.isSome = (ETL.run s src b bs).1.success := by
    rcases hE : ETL.extract s src with ⟨e, st1⟩
    cases e with
    | error u => simp [ETL.run, hE, ETL.isOkE]
    | ok pkts =>
      obtain ⟨ls, hls⟩ := load_ok_of_pos (ETL.transform st1 pkts).1 b bs hbs
      simp [ETL.run, hE, hls, ETL.isOkE]
  refine ⟨hmain.1, ?_, hmain.2⟩
  cases src with
  | file ext_ok readable pkts =>
    cases ext_ok <;> cases readable <;> simp [ETL.extract, ETL.isOkE, ETL.extractFails]
  | dir files =>
    by_cases h1 : files.isEmpty
    · have h1' : files = [] := List.isEmpty_iff.mp h1
      simp [ETL.extract, h1, ETL.isOkE, ETL.extractFails, h1']
    · by_cases h2 : files.any (fun f => !f.1)
      · have h2' : ∃ f ∈ files, f.1 = false := by
          simpa using List.any_eq_true.mp h2
        simp [ETL.extract, h1, h2, ETL.isOkE, ETL.extractFails, h2']
      · have h2' : ¬ ∃ f ∈ files, f.1 = false := by
          intro hc
          exact h2 (List.any_eq_true.mpr (by simpa using hc))
        have h1' : ¬ files = [] := by
          intro hc
          exact h1 (by simp [hc])
      
        simp [ETL.extract, h1, h2, ETL.isOkE, ETL.extractFails, h2', h1']
  | missing => simp [ETL.extract, ETL.isOkE, ETL.extractFails]

/-- C4 witness: with batch size one hundred over a readable six-SYN
capture, and a sink that rejects every attack write, the run still
succeeds: one attack record is counted as an error, the six packets and
one connection are counted as loaded. -/
theorem claim_C4_witness :
    (ETL.run ETL.Stats.zero
      (ETL.Source.file true true (List.replicate 6 (ETL.synRaw 5 1 0)))
      ⟨fun _ => false⟩ 100).1.success = true ∧
    (ETL.run ETL.Stats.zero
      (ETL.Source.file true true (List.replicate 6 (ETL.synRaw 5 1 0)))
      ⟨fun _ => false⟩ 100).1.load_stats = some ⟨6, 1, 0, 1⟩ := by
  have h := claim_C4_amended ETL.Stats.zero
    (ETL.Source.file true true (List.replicate 6 (ETL.synRaw 5 1 0)))
    ⟨fun _ => false⟩ 100 (by decide)
  exact ⟨h.1.mpr (by decide), by decide⟩

theorem Stats_add_zero_right (s : ETL.Stats) : ETL.Stats.add s ETL.Stats.zero = s := by
  cases s
  simp [ETL.Stats.add, ETL.Stats.zero]

theorem Stats_add_assoc (a b c : ETL.Stats) :
    ETL.Stats.add (ETL.Stats.add a b) c = ETL.Stats.add a (ETL.Stats.add b c) := by
  cases a
  cases b
  cases c
  simp [ETL.Stats.add, Nat.add_assoc]

/-- One transform-loop step from an arbitrary starting stats record equals
the step from zeroed stats with the starting stats added on: every counter
change of the loop body is an increment that does not read the counters. -/
theorem transformStep_add (s : ETL.Stats) (P : List ETL.PacketData)
    (A : List ETL.AttackRecord) (C : List (ETL.ConnKey × ETL.ConnRecord))
    (I : List (IPAddr × ETL.IPStat)) (i : Nat) (p : ETL.RawPacket) :
    ETL.transformStep ⟨s, P, A, C, I⟩ i p =
      ⟨ETL.Stats.add s (ETL.transformStep ⟨ETL.Stats.zero, P, A, C, I⟩ i p).stats,
       (ETL.transformStep ⟨ETL.Stats.zero, P, A, C, I⟩ i p).packets,
       (ETL.transformStep ⟨ETL.Stats.zero, P, A, C, I⟩ i p).attacks,
       (ETL.transformStep ⟨ETL.Stats.zero, P, A, C, I⟩ i p).connections_map,
       (ETL.transformStep ⟨ETL.Stats.zero, P, A, C, I⟩ i p).ip_stats⟩ := by
  cases htp : ETL.transform_packet p i with
  | none =>
    simp [ETL.transformStep, htp, Stats_add_zero_right]
  | some pd =>
    simp only [ETL.transformStep, htp]
    rcases hcs : ETL.connStep C pd with ⟨cm2, created⟩
    rcases hda : ETL.detect_attacks pd
        (ETL.update_ip_stats (ETL.update_ip_stats I pd ETL.Dir.src) pd ETL.Dir.dst)
      with ⟨att, ip2⟩
    cases created <;> cases att <;>
      simp [ETL.Stats.add, ETL.Stats.zero, ETL.TransformAcc.mk.injEq, ETL.Stats.mk.injEq]

/-- The transform loop from an arbitrary starting stats record equals the
loop from zeroed stats with the starting stats added on. -/
theorem transformLoop_add (pkts : List ETL.RawPacket) :
    ∀ (s : ETL.Stats) (P : List ETL.PacketData) (A : List ETL.AttackRecord)
      (C : List (ETL.ConnKey × ETL.ConnRecord)) (I : List (IPAddr × ETL.IPStat)) (i : Nat),
      ETL.transformLoop ⟨s, P, A, C, I⟩ i pkts =
        ⟨ETL.Stats.add s (ETL.transformLoop ⟨ETL.Stats.zero, P, A, C, I⟩ i pkts).stats,
         (ETL.transformLoop ⟨ETL.Stats.zero, P, A, C, I⟩ i pkts).packets,
         (ETL.transformLoop ⟨ETL.Stats.zero, P, A, C, I⟩ i pkts).attacks,
         (ETL.transformLoop ⟨ETL.Stats.zero, P, A, C, I⟩ i pkts).connections_map,
         (ETL.transformLoop ⟨ETL.Stats.zero, P, A, C, I⟩ i pkts).ip_stats⟩ := by
  induction pkts with
  | nil =>
    intro s P A C I i
    simp [ETL.transformLoop, Stats_add_zero_right]
  | cons p rest ih =>
    intro s P A C I i
    simp only [ETL.transformLoop]
    rw [transformStep_add]
    rw [ih (ETL.Stats.add s (ETL.transformStep ⟨ETL.Stats.zero, P, A, C, I⟩ i p).stats)
      (ETL.transformStep ⟨ETL.Stats.zero, P, A, C, I⟩ i p).packets
      (ETL.transformStep ⟨ETL.Stats.zero, P, A, C, I⟩ i p).attacks
      (ETL.transformStep ⟨ETL.Stats.zero, P, A, C, I⟩ i p).connections_map
      (ETL.transformStep ⟨ETL.Stats.zero, P, A, C, I⟩ i p).ip_stats (i + 1)]
    have hz : ETL.transformStep ⟨ETL.Stats.zero, P, A, C, I⟩ i p =
        ⟨(ETL.transformStep ⟨ETL.Stats.zero, P, A, C, I⟩ i p).stats,
         (ETL.transformStep ⟨ETL.Stats.zero, P, A, C, I⟩ i p).packets,
         (ETL.transformStep ⟨ETL.Stats.zero, P, A, C, I⟩ i p).attacks,
         (ETL.transformStep ⟨ETL.Stats.zero, P, A, C, I⟩ i p).connections_map,
         (ETL.transformStep ⟨ETL.Stats.zero, P, A, C, I⟩ i p).ip_stats⟩ := rfl
    conv_rhs => rw [hz]
    rw [ih (ETL.transformStep ⟨ETL.Stats.zero, P, A, C, I⟩ i p).stats
      (ETL.transformStep ⟨ETL.Stats.zero, P, A, C, I⟩ i p).packets
      (ETL.transformStep ⟨ETL.Stats.zero, P, A, C, I⟩ i p).attacks
      (ETL.transformStep ⟨ETL.Stats.zero, P, A, C, I⟩ i p).connections_map
      (ETL.transformStep ⟨ETL.Stats.zero, P, A, C, I⟩ i p).ip_stats (i + 1)]
    simp [Stats_add_assoc]

/-- ETLPipeline.transform from an arbitrary starting stats record: the
transformed data does not depend on the starting counters, and the final
counters are the starting ones plus the contribution of this input. -/
theorem transform_add (s : ETL.Stats) (pkts : List ETL.RawPacket) :
    ETL.transform s pkts =
      ((ETL.transform ETL.Stats.zero pkts).1,
       ETL.Stats.add s (ETL.transform ETL.Stats.zero pkts).2) := by
  simp only [ETL.transform]
  rw [transformLoop_add pkts s [] [] [] [] 0]

/-- The counters of transform alone: starting counters plus this input's
contribution. -/
theorem transform_snd (s : ETL.Stats) (pkts : List ETL.RawPacket) :
    (ETL.transform s pkts).2 =
      ETL.Stats.add s (ETL.transform ETL.Stats.zero pkts).2 := by
  conv_lhs => rw [transform_add s pkts]

/-- The stats threaded out of run: untouched on an extraction failure, and
otherwise the transform output, whatever the load phase does. -/
theorem run_snd (s : ETL.Stats) (src : ETL.Source) (b : ETL.SinkBehavior) (bs : Nat) :
    (ETL.run s src b bs).2 =
      (match ETL.extract s src with
       | (Except.ok pkts, s1) => (ETL.transform s1 pkts).2
       | (Except.error _, s1) => s1) := by
  rcases hE : ETL.extract s src with ⟨e, s1⟩
  cases e with
  | error u => simp [ETL.run, hE]
  | ok pkts =>
    rcases hl : ETL.load (ETL.transform s1 pkts).1 b bs with u | ls <;>
      simp [ETL.run, hE, hl]

/-- C5 amended: run never resets the counters. The counters a run returns
are the instance counters accumulated so far plus this run's contribution:
total_packets alone is overwritten by a successful extraction, while
processed, failed, connections and attacks add up across runs on the same
pipeline instance; an extraction failure leaves every counter untouched. -/
theorem claim_C5_amended (s : ETL.Stats) (src : ETL.Source) (b : ETL.SinkBehavior) (bs : Nat) :
    (ETL.run s src b bs).2 =
      ⟨(if ETL.isOkE (ETL.extract s src).1 = true
        then (ETL.run ETL.Stats.zero src b bs).2.total_packets
        else s.total_packets),
       s.processed_packets + (ETL.run ETL.Stats.zero src b bs).2.processed_packets,
       s.failed_packets + (ETL.run ETL.Stats.zero src b bs).2.failed_packets,
       s.connections_created + (ETL.run ETL.Stats.zero src b bs).2.connections_created,
       s.attacks_detected + (ETL.run ETL.Stats.zero src b bs).2.attacks_detected⟩ := by
  cases src with
  | file ext_ok readable pkts =>
    cases ext_ok with
    | false =>
      cases s
      simp [run_snd, ETL.extract, ETL.isOkE, ETL.Stats.zero]
    | true =>
      cases readable with
      | false =>
        cases s
        simp [run_snd, ETL.extract, ETL.isOkE, ETL.Stats.zero]
      | true =>
        have hE : ETL.extract s (ETL.Source.file true true pkts) =
            (Except.ok pkts, { s with total_packets := pkts.length }) := by
          simp [ETL.extract]
        have hE0 : ETL.extract ETL.Stats.zero (ETL.Source.file true true pkts) =
            (Except.ok pkts, { ETL.Stats.zero with total_packets := pkts.length }) := by
          simp [ETL.extract]
        simp only [run_snd, hE, hE0, ETL.isOkE, if_true]
        rw [transform_snd { s with total_packets := pkts.length } pkts,
          transform_snd { ETL.Stats.zero with total_packets := pkts.length } pkts]
        cases s
        simp [ETL.Stats.add, ETL.Stats.zero]
  | dir files =>
    by_cases h1 : files.isEmpty
    · cases s
      simp [run_snd, ETL.extract, h1, ETL.isOkE, ETL.Stats.zero]
    · by_cases h2 : files.any (fun f => !f.1)
      · cases s
        simp [run_snd, ETL.extract, h1, h2, ETL.isOkE, ETL.Stats.zero]
      · have hE : ETL.extract s (ETL.Source.dir files) =
            (Except.ok ((files.map Prod.snd).flatten),
             { s with total_packets := ((files.map Prod.snd).flatten).length }) := by
          simp [ETL.extract, h1, h2]
        have hE0 : ETL.extract ETL.Stats.zero (ETL.Source.dir files) =
            (Except.ok ((files.map Prod.snd).flatten),
             { ETL.Stats.zero with
               total_packets := ((files.map Prod.snd).flatten).length }) := by
          simp [ETL.extract, h1, h2]
        simp only [run_snd, hE, hE0, ETL.isOkE, if_true]
        rw [transform_snd
            { s with total_packets := ((files.map Prod.snd).flatten).length }
            ((files.map Prod.snd).flatten),
          transform_snd
            { ETL.Stats.zero with
              total_packets := ((files.map Prod.snd).flatten).length }
            ((files.map Prod.snd).flatten)]
        cases s
        simp [ETL.Stats.add, ETL.Stats.zero]
  | missing =>
    cases s
    simp [run_snd, ETL.extract, ETL.isOkE, ETL.Stats.zero]

/-- C5 counterexample: two identical runs over the same one-packet capture
on the same pipeline instance: the second result reports total_packets one
but processed_packets two, so its counters do not reflect only the packets
of the second run. -/
theorem claim_C5_counterexample :
    (ETL.run (ETL.run ETL.Stats.zero (ETL.Source.file true true [ETL.goodPacket])
        ⟨fun _ => true⟩ 100).2
      (ETL.Source.file true true [ETL.goodPacket]) ⟨fun _ => true⟩
      100).1.stats.total_packets = 1 ∧
    (ETL.run (ETL.run ETL.Stats.zero (ETL.Source.file true true [ETL.goodPacket])
        ⟨fun _ => true⟩ 100).2
      (ETL.Source.file true true [ETL.goodPacket]) ⟨fun _ => true⟩
      100).1.stats.processed_packets = 2 ∧
    ¬ (ETL.run (ETL.run ETL.Stats.zero (ETL.Source.file true true [ETL.goodPacket])
        ⟨fun _ => true⟩ 100).2
      (ETL.Source.file true true [ETL.goodPacket]) ⟨fun _ => true⟩
      100).1.stats.processed_packets = 1 := by
  decide

/-- The lifetime SYN counter the batch detector keeps for an address (a
missing row reads as zero). -/
def synCountOf (m : List (IPAddr × ETL.IPStat)) (ip : IPAddr) : Nat :=
  ((dictGet m ip).map ETL.IPStat.syn_packet_count).getD 0

/-- The lifetime UDP counter the batch detector keeps for an address. -/
def udpCountOf (m : List (IPAddr × ETL.IPStat)) (ip : IPAddr) : Nat :=
  ((dictGet m ip).map ETL.IPStat.udp_packet_count).getD 0

theorem bumpIPStat_syn (s : ETL.IPStat) (pd : ETL.PacketData) (dir : ETL.Dir) :
    (ETL.bumpIPStat s pd dir).syn_packet_count = s.syn_packet_count := by
  cases dir with
  | src => cases h : pd.src_port <;> simp [ETL.bumpIPStat, h]
  | dst => cases h : pd.dst_port <;> simp [ETL.bumpIPStat, h]

theorem bumpIPStat_udp (s : ETL.IPStat) (pd : ETL.PacketData) (dir : ETL.Dir) :
    (ETL.bumpIPStat s pd dir).udp_packet_count = s.udp_packet_count := by
  cases dir with
  | src => cases h : pd.src_port <;> simp [ETL.bumpIPStat, h]
  | dst => cases h : pd.dst_port <;> simp [ETL.bumpIPStat, h]

/-- _update_ip_stats never touches the lifetime attack counters of an
existing row, and keeps the row present. -/
theorem update_entry_counts (m : List (IPAddr × ETL.IPStat)) (pd : ETL.PacketData)
    (dir : ETL.Dir) (ip : IPAddr) (s : ETL.IPStat) (h : dictGet m ip = some s) :
    ∃ s', dictGet (ETL.update_ip_stats m pd dir) ip = some s' ∧
      s'.syn_packet_count = s.syn_packet_count ∧
      s'.udp_packet_count = s.udp_packet_count := by
  unfold ETL.update_ip_stats
  rcases hk : (match dir with | ETL.Dir.src => pd.src_ip | ETL.Dir.dst => pd.dst_ip)
    with _ | k
  · simp only [hk]
    exact ⟨s, h, rfl, rfl⟩
  · simp only [hk]
    by_cases hik : ip = k
    · subst hik
      simp only [h]
      exact ⟨ETL.bumpIPStat s pd dir, by simp [dictGet_dictSet_self],
        bumpIPStat_syn s pd dir, bumpIPStat_udp s pd dir⟩
    · refine ⟨s, ?_, rfl, rfl⟩
      rw [dictGet_dictSet_ne _ _ _ _ hik]
      exact h

/-- After the source-direction update, the source address has a row whose
lifetime attack counters are the old ones (zero for a fresh row). -/
theorem update_src_entry (m : List (IPAddr × ETL.IPStat)) (pd : ETL.PacketData)
    (ip : IPAddr) (h : pd.src_ip = some ip) :
    ∃ s', dictGet (ETL.update_ip_stats m pd ETL.Dir.src) ip = some s' ∧
      s'.syn_packet_count = synCountOf m ip ∧
      s'.udp_packet_count = udpCountOf m ip := by
  unfold ETL.update_ip_stats
  rw [show (match ETL.Dir.src with
    | ETL.Dir.src => pd.src_ip
    | ETL.Dir.dst => pd.dst_ip) = pd.src_ip from rfl, h]
  cases hg : dictGet m ip with
  | none =>
    simp only [hg]
    refine ⟨ETL.bumpIPStat (ETL.freshIPStat pd.timestamp) pd ETL.Dir.src,
      by simp [dictGet_dictSet_self], ?_, ?_⟩
    · rw [bumpIPStat_syn]
      simp [synCountOf, hg, ETL.freshIPStat]
    · rw [bumpIPStat_udp]
      simp [udpCountOf, hg, ETL.freshIPStat]
  | some s =>
    simp only [hg]
    refine ⟨ETL.bumpIPStat s pd ETL.Dir.src, by simp [dictGet_dictSet_self], ?_, ?_⟩
    · rw [bumpIPStat_syn]
      simp [synCountOf, hg]
    · rw [bumpIPStat_udp]
      simp [udpCountOf, hg]

/-- _detect_attacks on a qualifying SYN record with a stored row: bump the
lifetime SYN counter and fire exactly when it exceeds five. -/
theorem detect_attacks_syn (pd : ETL.PacketData) (m : List (IPAddr × ETL.IPStat))
    (src : IPAddr) (s : ETL.IPStat)
    (hsrc : pd.src_ip = some src) (hp : pd.protocol = ETL.EProto.TCP)
    (hsyn : pd.tcp_syn = true) (hack : pd.tcp_ack = false)
    (hm : dictGet m src = some s) :
    ETL.detect_attacks pd m =
      ((if 5 < s.syn_packet_count + 1 then
          some ⟨AttackType.synFlood, src, pd.dst_ip, ETL.Severity.high,
            s.syn_packet_count + 1, pd.timestamp⟩
        else none),
       dictSet m src { s with syn_packet_count := s.syn_packet_count + 1 }) := by
  unfold ETL.detect_attacks
  simp only [hsrc]
  rw [if_pos ⟨hp, hsyn, hack⟩]
  simp only [hm]
  by_cases hlt : 5 < s.syn_packet_count + 1 <;> simp [hlt]

/-- _detect_attacks on a UDP record with a stored row: bump the lifetime
UDP counter and fire exactly when it exceeds one hundred. -/
theorem detect_attacks_udp (pd : ETL.PacketData) (m : List (IPAddr × ETL.IPStat))
    (src : IPAddr) (s : ETL.IPStat)
    (hsrc : pd.src_ip = some src) (hp : pd.protocol = ETL.EProto.UDP)
    (hm : dictGet m src = some s) :
    ETL.detect_attacks pd m =
      ((if 100 < s.udp_packet_count + 1 then
          some ⟨AttackType.udpFlood, src, pd.dst_ip, ETL.Severity.medium,
            s.udp_packet_count + 1, pd.timestamp⟩
        else none),
       dictSet m src { s with udp_packet_count := s.udp_packet_count + 1 }) := by
  unfold ETL.detect_attacks
  simp only [hsrc]
  have hcond : ¬ (pd.protocol = ETL.EProto.TCP ∧ pd.tcp_syn = true ∧ pd.tcp_ack = false) := by
    rintro ⟨hc, _⟩
    rw [hp] at hc
    exact absurd hc (by decide)
  rw [if_neg hcond, if_pos hp]
  simp only [hm]
  by_cases hlt : 100 < s.udp_packet_count + 1 <;> simp [hlt]

/-- The decoded record of a qualifying SYN raw packet. -/
def pdSyn (src dst : IPAddr) (t : Time) (i : Nat) : ETL.PacketData :=
  ⟨i, t, 60, ETL.EProto.TCP, some src, some dst, some 1000, some 80, true, false⟩

/-- The decoded record of a UDP raw packet. -/
def pdUdp (src dst : IPAddr) (t : Time) (i : Nat) : ETL.PacketData :=
  ⟨i, t, 60, ETL.EProto.UDP, some src, some dst, some 1000, some 80, false, false⟩

/-- One transform step on a qualifying SYN packet: the lifetime SYN
counter for the source rises by one, and one attack record and one
attacks_detected count are appended exactly when the risen counter
exceeds five. -/
theorem transformStep_syn (acc : ETL.TransformAcc) (i : Nat) (src dst : IPAddr) (t : Time) :
    (ETL.transformStep acc i (ETL.synRaw src dst t)).attacks.length =
      acc.attacks.length + (if 5 < synCountOf acc.ip_stats src + 1 then 1 else 0) ∧
    (ETL.transformStep acc i (ETL.synRaw src dst t)).stats.attacks_detected =
      acc.stats.attacks_detected + (if 5 < synCountOf acc.ip_stats src + 1 then 1 else 0) ∧
    synCountOf (ETL.transformStep acc i (ETL.synRaw src dst t)).ip_stats src =
      synCountOf acc.ip_stats src + 1 := by
  obtain ⟨s1, hs1, hsyn1, _⟩ := update_src_entry acc.ip_stats (pdSyn src dst t i) src rfl
  obtain ⟨s2, hs2, hsyn2, _⟩ := update_entry_counts
    (ETL.update_ip_stats acc.ip_stats (pdSyn src dst t i) ETL.Dir.src)
    (pdSyn src dst t i) ETL.Dir.dst src s1 hs1
  have htp : ETL.transform_packet (ETL.synRaw src dst t) i = some (pdSyn src dst t i) := by
    simp only [ETL.transform_packet, ETL.synRaw, pdSyn]
    norm_num
    decide
  have hda := detect_attacks_syn (pdSyn src dst t i)
    (ETL.update_ip_stats (ETL.update_ip_stats acc.ip_stats (pdSyn src dst t i) ETL.Dir.src)
      (pdSyn src dst t i) ETL.Dir.dst) src s2 rfl rfl rfl rfl hs2
  simp only [ETL.transformStep, htp, hda]
  rw [hsyn2, hsyn1]
  refine ⟨?_, ?_, ?_⟩
  · by_cases hlt : 5 < synCountOf acc.ip_stats src + 1 <;> simp [hlt]
  · by_cases hlt : 5 < synCountOf acc.ip_stats src + 1 <;>
      cases hcu : (ETL.connStep acc.connections_map (pdSyn src dst t i)).2 <;>
        simp [hlt, hcu]
  · simp [synCountOf, dictGet_dictSet_self]

/-- One transform step on a UDP packet: the lifetime UDP counter for the
source rises by one, and one attack record and one attacks_detected count
are appended exactly when the risen counter exceeds one hundred. -/
theorem transformStep_udp (acc : ETL.TransformAcc) (i : Nat) (src dst : IPAddr) (t : Time) :
    (ETL.transformStep acc i (ETL.udpRaw src dst t)).attacks.length =
      acc.attacks.length + (if 100 < udpCountOf acc.ip_stats src + 1 then 1 else 0) ∧
    (ETL.transformStep acc i (ETL.udpRaw src dst t)).stats.attacks_detected =
      acc.stats.attacks_detected + (if 100 < udpCountOf acc.ip_stats src + 1 then 1 else 0) ∧
    udpCountOf (ETL.transformStep acc i (ETL.udpRaw src dst t)).ip_stats src =
      udpCountOf acc.ip_stats src + 1 := by
  obtain ⟨s1, hs1, _, hudp1⟩ := update_src_entry acc.ip_stats (pdUdp src dst t i) src rfl
  obtain ⟨s2, hs2, _, hudp2⟩ := update_entry_counts
    (ETL.update_ip_stats acc.ip_stats (pdUdp src dst t i) ETL.Dir.src)
    (pdUdp src dst t i) ETL.Dir.dst src s1 hs1
  have htp : ETL.transform_packet (ETL.udpRaw src dst t) i = some (pdUdp src dst t i) := by
    simp only [ETL.transform_packet, ETL.udpRaw, pdUdp]
    norm_num
  have hda := detect_attacks_udp (pdUdp src dst t i)
    (ETL.update_ip_stats (ETL.update_ip_stats acc.ip_stats (pdUdp src dst t i) ETL.Dir.src)
      (pdUdp src dst t i) ETL.Dir.dst) src s2 rfl rfl hs2
  simp only [ETL.transformStep, htp, hda]
  rw [hudp2, hudp1]
  refine ⟨?_, ?_, ?_⟩
  · by_cases hlt : 100 < udpCountOf acc.ip_stats src + 1 <;> simp [hlt]
  · by_cases hlt : 100 < udpCountOf acc.ip_stats src + 1 <;>
      cases hcu : (ETL.connStep acc.connections_map (pdUdp src dst t i)).2 <;>
        simp [hlt, hcu]
  · simp [udpCountOf, dictGet_dictSet_self]

/-- Folding n qualifying SYN packets through the transform loop: the
attacks list and the attacks counter grow by one for every packet whose
running lifetime SYN count exceeds five. -/
theorem syn_fold_aux (src dst : IPAddr) (t : Time) (n : Nat) :
    ∀ (acc : ETL.TransformAcc) (i : Nat),
      (ETL.transformLoop acc i (List.replicate n (ETL.synRaw src dst t))).attacks.length =
        acc.attacks.length +
          (synCountOf acc.ip_stats src + n - max (synCountOf acc.ip_stats src) 5) ∧
      (ETL.transformLoop acc i
          (List.replicate n (ETL.synRaw src dst t))).stats.attacks_detected =
        acc.stats.attacks_detected +
          (synCountOf acc.ip_stats src + n - max (synCountOf acc.ip_stats src) 5) := by
  induction n with
  | zero =>
    intro acc i
    have h0 : synCountOf acc.ip_stats src + 0 - max (synCountOf acc.ip_stats src) 5 = 0 := by
      have := Nat.le_max_left (synCountOf acc.ip_stats src) 5
      omega
    simp [ETL.transformLoop, h0]
  | succ k ih =>
    intro acc i
    rw [List.replicate_succ]
    simp only [ETL.transformLoop]
    obtain ⟨hA, hB, hC⟩ := transformStep_syn acc i src dst t
    obtain ⟨ihA, ihB⟩ := ih (ETL.transformStep acc i (ETL.synRaw src dst t)) (i + 1)
    rw [hC] at ihA ihB
    constructor
    · rw [ihA, hA]
      by_cases hlt : 5 < synCountOf acc.ip_stats src + 1
      · have hm1 : max (synCountOf acc.ip_stats src) 5 = synCountOf acc.ip_stats src :=
          Nat.max_eq_left (by omega)
        have hm2 : max (synCountOf acc.ip_stats src + 1) 5 =
            synCountOf acc.ip_stats src + 1 := Nat.max_eq_left (by omega)
        rw [hm1, hm2, if_pos hlt]
        omega
      · have hm1 : max (synCountOf acc.ip_stats src) 5 = 5 := Nat.max_eq_right (by omega)
        have hm2 : max (synCountOf acc.ip_stats src + 1) 5 = 5 := Nat.max_eq_right (by omega)
        rw [hm1, hm2, if_neg hlt]
        omega
    · rw [ihB, hB]
      by_cases hlt : 5 < synCountOf acc.ip_stats src + 1
      · have hm1 : max (synCountOf acc.ip_stats src) 5 = synCountOf acc.ip_stats src :=
          Nat.max_eq_left (by omega)
        have hm2 : max (synCountOf acc.ip_stats src + 1) 5 =
            synCountOf acc.ip_stats src + 1 := Nat.max_eq_left (by omega)
        rw [hm1, hm2, if_pos hlt]
        omega
      · have hm1 : max (synCountOf acc.ip_stats src) 5 = 5 := Nat.max_eq_right (by omega)
        have hm2 : max (synCountOf acc.ip_stats src + 1) 5 = 5 := Nat.max_eq_right (by omega)
        rw [hm1, hm2, if_neg hlt]
        omega

/-- Folding n UDP packets through the transform loop: the attacks list and
the attacks counter grow by one for every packet whose running lifetime
UDP count exceeds one hundred. -/
theorem udp_fold_aux (src dst : IPAddr) (t : Time) (n : Nat) :
    ∀ (acc : ETL.TransformAcc) (i : Nat),
      (ETL.transformLoop acc i (List.replicate n (ETL.udpRaw src dst t))).attacks.length =
        acc.attacks.length +
          (udpCountOf acc.ip_stats src + n - max (udpCountOf acc.ip_stats src) 100) ∧
      (ETL.transformLoop acc i
          (List.replicate n (ETL.udpRaw src dst t))).stats.attacks_detected =
        acc.stats.attacks_detected +
          (udpCountOf acc.ip_stats src + n - max (udpCountOf acc.ip_stats src) 100) := by
  induction n with
  | zero =>
    intro acc i
    have h0 : udpCountOf acc.ip_stats src + 0 -
        max (udpCountOf acc.ip_stats src) 100 = 0 := by
      have := Nat.le_max_left (udpCountOf acc.ip_stats src) 100
      omega
    simp [ETL.transformLoop, h0]
  | succ k ih =>
    intro acc i
    rw [List.replicate_succ]
    simp only [ETL.transformLoop]
    obtain ⟨hA, hB, hC⟩ := transformStep_udp acc i src dst t
    obtain ⟨ihA, ihB⟩ := ih (ETL.transformStep acc i (ETL.udpRaw src dst t)) (i + 1)
    rw [hC] at ihA ihB
    constructor
    · rw [ihA, hA]
      by_cases hlt : 100 < udpCountOf acc.ip_stats src + 1
      · have hm1 : max (udpCountOf acc.ip_stats src) 100 = udpCountOf acc.ip_stats src :=
          Nat.max_eq_left (by omega)
        have hm2 : max (udpCountOf acc.ip_stats src + 1) 100 =
            udpCountOf acc.ip_stats src + 1 := Nat.max_eq_left (by omega)
        rw [hm1, hm2, if_pos hlt]
        omega
      · have hm1 : max (udpCountOf acc.ip_stats src) 100 = 100 := Nat.max_eq_right (by omega)
        have hm2 : max (udpCountOf acc.ip_stats src + 1) 100 = 100 :=
          Nat.max_eq_right (by omega)
        rw [hm1, hm2, if_neg hlt]
        omega
    · rw [ihB, hB]
      by_cases hlt : 100 < udpCountOf acc.ip_stats src + 1
      · have hm1 : max (udpCountOf acc.ip_stats src) 100 = udpCountOf acc.ip_stats src :=
          Nat.max_eq_left (by omega)
        have hm2 : max (udpCountOf acc.ip_stats src + 1) 100 =
            udpCountOf acc.ip_stats src + 1 := Nat.max_eq_left (by omega)
        rw [hm1, hm2, if_pos hlt]
        omega
      · have hm1 : max (udpCountOf acc.ip_stats src) 100 = 100 := Nat.max_eq_right (by omega)
        have hm2 : max (udpCountOf acc.ip_stats src + 1) 100 = 100 :=
          Nat.max_eq_right (by omega)
        rw [hm1, hm2, if_neg hlt]
        omega

/-- C10: the batch transform detector keeps lifetime per-source counters
with no dedupe: over n SYN-without-ACK packets from one source it appends
one attack record and one attacks_detected count per packet past the
fifth, n - 5 in all; over n UDP packets it does the same past the
hundredth, n - 100 in all, so the attacks output grows by one record per
packet past the threshold. -/
theorem claim_C10 (src dst : IPAddr) (t : Time) (n : Nat) (s : ETL.Stats) :
    ((ETL.transform s (List.replicate n (ETL.synRaw src dst t))).1.attacks.length =
        n - 5 ∧
     (ETL.transform s (List.replicate n (ETL.synRaw src dst t))).2.attacks_detected =
        s.attacks_detected + (n - 5)) ∧
    ((ETL.transform s (List.replicate n (ETL.udpRaw src dst t))).1.attacks.length =
        n - 100 ∧
     (ETL.transform s (List.replicate n (ETL.udpRaw src dst t))).2.attacks_detected =
        s.attacks_detected + (n - 100)) := by
  have hsynz : synCountOf ([] : List (IPAddr × ETL.IPStat)) src = 0 := rfl
  have hudpz : udpCountOf ([] : List (IPAddr × ETL.IPStat)) src = 0 := rfl
  constructor
  · obtain ⟨h1, h2⟩ := syn_fold_aux src dst t n ⟨s, [], [], [], []⟩ 0
    rw [hsynz] at h1 h2
    simp only [ETL.transform]
    constructor
    · rw [h1]
      simp [Nat.max_eq_right (by omega : 0 ≤ 5)]
    · rw [h2]
      simp [Nat.max_eq_right (by omega : 0 ≤ 5)]
  · obtain ⟨h1, h2⟩ := udp_fold_aux src dst t n ⟨s, [], [], [], []⟩ 0
    rw [hudpz] at h1 h2
    simp only [ETL.transform]
    constructor
    · rw [h1]
      simp [Nat.max_eq_right (by omega : 0 ≤ 100)]
    · rw [h2]
      simp [Nat.max_eq_right (by omega : 0 ≤ 100)]

/-- C9 witness: twelve UDP packets from one source on a fresh analyzer log
exactly two UDP-flood events, one for the eleventh packet and one for the
twelfth. -/
theorem claim_C9_witness :
    ((analyze_pcap ⟨SYNDetector.init 5 2, FirewallManager.init 10, [], 0⟩ []
        ((List.replicate 12 (0 : Time)).map (udpPacket 8 9 60))).2.2).length = 2 := by
  have h := claim_C9 (SYNDetector.init 5 2) (FirewallManager.init 10) 8 9 60
    (List.replicate 12 0)
  simpa using h.1
